import Mathlib

/-!
# MiniZinc abstract syntax tree (`include/minizinc/ast.hh`) and parser tokens

A shallow embedding of the node model of `ast.hh`: the tag enumerations of
`Expression` and `Item`, the concrete classes with their constructors, the
narrowing operations `isa` / `cast` / `dyn_cast`, `IncludeI::setModel`, the
queries of `TiExpr`, the basic type-insts, the `operator delete` members of
`ASTNode` and the visitor `EVisitor`; and of the token table of
`parser.tab.hh`. The members the header only declares (`annotate`, `merge`,
`addRanges`, the factories) and the interner of `context.hh` are modelled from
the specification; each such definition says so.

Conventions of the embedding.

* A pointer to an AST node or a model is `Option Nat`: `none` is `NULL`,
  `some a` the address `a`. The two pointer members the header dereferences,
  `TiExpr::_ranges` and `TiExpr::_ti`, are `none` or the object pointed to, and
  so are the other `CtxVec` pointers.
* A template argument `T` of `isa<T>`, `cast<T>`, `dyn_cast<T>` is a value of
  `ExprClass` (resp. `ItemClass`), the list of concrete classes; `T::eid`
  (resp. `T::iid`) is `ExprClass.eid` (resp. `ItemClass.iid`).
* A class is a structure; a derived class extends the structure of its base.
  The object an `Expression*` (resp. `Item*`) handle points to is an object of
  one of the concrete classes: `ExprNode` (resp. `ItemNode`).
  `static_cast<T*>(this)` does not change the address, so the view a narrowing
  returns is the object itself.
* `assert` is the one of a build without `NDEBUG`: a false condition aborts,
  which is the `Except.error` result carrying the text of the condition.
* A member a constructor does not initialise keeps the content of the raw
  storage the object is built in; that content is an explicit argument `raw`.
-/

set_option linter.dupNamespace false

namespace MiniZinc

/-! ## Pointers and types declared in `context.hh` -/

/-- A pointer: `none` is `NULL`. -/
abbrev Ptr := Option Nat

/-- The null pointer. -/
abbrev NULL : Ptr := none

/-- Modelled from the spec: `CtxStringH` is declared in `context.hh`; it is the
handle of an interned string, compared by identity of the handle. -/
structure CtxStringH where
  handle : Nat
  deriving DecidableEq, Repr

/-- Modelled from the spec: `CtxVec<T>` is declared in `context.hh`; it is a
context-allocated sequence of `T`. A `CtxVec<T>*` member is `NULL` or the
sequence it points to. -/
abbrev CtxVecPtr (α : Type) := Option (List α)

/-- The C++ `double`, kept as its 64-bit representation: the classes only
store it. -/
structure Double where
  bits : Nat
  deriving DecidableEq, Repr

/-- The `assert` of an assertion-enabled build: passes on a true condition and
aborts with the text of the condition otherwise. -/
def assert (cond : Bool) (text : String) : Except String Unit :=
  if cond then Except.ok () else Except.error text

/-! ## Location -/

/-- Class `Location`: file name (context-allocated, or `NULL`) and the span. -/
structure Location where
  filename : Ptr
  first_line : Nat
  first_column : Nat
  last_line : Nat
  last_column : Nat
  deriving DecidableEq, Repr

/-! ## Tag enumerations -/

/-- The enumeration `Expression::ExpressionId`, in declaration order. -/
inductive ExpressionId
  | E_INTLIT | E_FLOATLIT | E_SETLIT | E_BOOLLIT
  | E_STRINGLIT | E_ID | E_ANON | E_ARRAYLIT
  | E_ARRAYACCESS | E_COMP | E_ITE
  | E_BINOP | E_UNOP | E_CALL | E_VARDECL | E_LET
  | E_ANN | E_TI
  deriving DecidableEq, Repr, Fintype

/-- The enumeration `Item::ItemId`, in declaration order. -/
inductive ItemId
  | II_INC | II_VD | II_ASN | II_CON | II_SOL
  | II_OUT | II_PRED | II_FUN
  deriving DecidableEq, Repr, Fintype

/-- The enumeration `BinOpType`. -/
inductive BinOpType
  | BOT_PLUS | BOT_MINUS | BOT_MULT | BOT_DIV | BOT_IDIV | BOT_MOD
  | BOT_LE | BOT_LQ | BOT_GR | BOT_GQ | BOT_EQ | BOT_NQ
  | BOT_IN | BOT_SUBSET | BOT_SUPERSET | BOT_UNION | BOT_DIFF | BOT_SYMDIFF
  | BOT_INTERSECT
  | BOT_PLUSPLUS
  | BOT_EQUIV | BOT_IMPL | BOT_RIMPL | BOT_OR | BOT_AND | BOT_XOR
  | BOT_DOTDOT
  deriving DecidableEq, Repr

/-- The enumeration `UnOpType`. -/
inductive UnOpType
  | UOT_NOT | UOT_PLUS | UOT_MINUS
  deriving DecidableEq, Repr

/-- The enumeration `BaseTiExpr::TiExprId`. -/
inductive TiExprId
  | TI_INT | TI_FLOAT | TI_BOOL | TI_STRING | TI_ANN
  deriving DecidableEq, Repr

/-- The enumeration `TiExpr::VarType`. -/
inductive VarType
  | VT_PAR | VT_VAR | VT_SVAR
  deriving DecidableEq, Repr

/-- The enumeration `SolveI::SolveType`. -/
inductive SolveType
  | ST_SAT | ST_MIN | ST_MAX
  deriving DecidableEq, Repr

/-! ## The concrete classes and their tags -/

/-- The concrete classes derived from `Expression`, in the order the header
declares them. -/
inductive ExprClass
  | Annotation | IntLit | FloatLit | SetLit | BoolLit | StringLit | Id
  | AnonVar | ArrayLit | ArrayAccess | Comprehension | ITE | BinOp | UnOp
  | Call | VarDecl | Let | TiExpr
  deriving DecidableEq, Repr, Fintype

/-- The static member `T::eid` of each class derived from `Expression`. -/
def ExprClass.eid : ExprClass → ExpressionId
  | ExprClass.Annotation => .E_ANN
  | .IntLit => .E_INTLIT
  | .FloatLit => .E_FLOATLIT
  | .SetLit => .E_SETLIT
  | .BoolLit => .E_BOOLLIT
  | .StringLit => .E_STRINGLIT
  | .Id => .E_ID
  | .AnonVar => .E_ANON
  | .ArrayLit => .E_ARRAYLIT
  | .ArrayAccess => .E_ARRAYACCESS
  | .Comprehension => .E_COMP
  | .ITE => .E_ITE
  | .BinOp => .E_BINOP
  | .UnOp => .E_UNOP
  | .Call => .E_CALL
  | .VarDecl => .E_VARDECL
  | .Let => .E_LET
  | .TiExpr => .E_TI

/-- The concrete classes derived from `Item`, in the order the header declares
them. -/
inductive ItemClass
  | IncludeI | VarDeclI | AssignI | ConstraintI | SolveI | OutputI
  | PredicateI | FunctionI
  deriving DecidableEq, Repr, Fintype

/-- The static member `T::iid` of each class derived from `Item`. -/
def ItemClass.iid : ItemClass → ItemId
  | .IncludeI => .II_INC
  | .VarDeclI => .II_VD
  | .AssignI => .II_ASN
  | .ConstraintI => .II_CON
  | .SolveI => .II_SOL
  | .OutputI => .II_OUT
  | .PredicateI => .II_PRED
  | .FunctionI => .II_FUN

/-! ## Expressions -/

/-- Class `Expression`: the members common to all expression nodes. -/
structure Expression where
  _ann : Ptr
  _loc : Location
  _eid : ExpressionId
  deriving DecidableEq, Repr

/-- Class `Annotation`. -/
structure Annotation extends Expression where
  _e : Ptr
  _a : Ptr
  deriving DecidableEq, Repr

/-- Class `IntLit`. -/
structure IntLit extends Expression where
  _v : Int
  deriving DecidableEq, Repr

/-- Class `FloatLit`. -/
structure FloatLit extends Expression where
  _v : Double
  deriving DecidableEq, Repr

/-- Class `SetLit`. -/
structure SetLit extends Expression where
  _v : CtxVecPtr Ptr
  deriving DecidableEq, Repr

/-- Class `BoolLit`. -/
structure BoolLit extends Expression where
  _v : Bool
  deriving DecidableEq, Repr

/-- Class `StringLit`. -/
structure StringLit extends Expression where
  _v : CtxStringH
  deriving DecidableEq, Repr

/-- Class `Id`. -/
structure Id extends Expression where
  _v : CtxStringH
  _decl : Ptr
  deriving DecidableEq, Repr

/-- Class `AnonVar`. -/
structure AnonVar extends Expression where
  deriving DecidableEq, Repr

/-- Class `ArrayLit`. -/
structure ArrayLit extends Expression where
  _v : CtxVecPtr Ptr
  _dims : CtxVecPtr (Int × Int)
  deriving DecidableEq, Repr

/-- Class `ArrayAccess`. -/
structure ArrayAccess extends Expression where
  _v : Ptr
  _idx : CtxVecPtr Ptr
  deriving DecidableEq, Repr

/-- Class `Comprehension`. -/
structure Comprehension extends Expression where
  _e : Ptr
  _g : CtxVecPtr Ptr
  _where : Ptr
  _set : Bool
  deriving DecidableEq, Repr

/-- Class `ITE`; `_e_if` holds the `IfThen` pairs. -/
structure ITE extends Expression where
  _e_if : CtxVecPtr (Ptr × Ptr)
  _e_else : Ptr
  deriving DecidableEq, Repr

/-- Class `BinOp`. -/
structure BinOp extends Expression where
  _e0 : Ptr
  _e1 : Ptr
  _op : BinOpType
  deriving DecidableEq, Repr

/-- Class `UnOp`. -/
structure UnOp extends Expression where
  _e0 : Ptr
  _op : UnOpType
  deriving DecidableEq, Repr

/-- Class `Call`. -/
structure Call extends Expression where
  _id : CtxStringH
  _args : CtxVecPtr Ptr
  _decl : Ptr
  deriving DecidableEq, Repr

/-- Class `VarDecl`. -/
structure VarDecl extends Expression where
  _ti : Ptr
  _id : CtxStringH
  _e : Ptr
  deriving DecidableEq, Repr

/-- Class `Let`. -/
structure Let extends Expression where
  _let : CtxVecPtr Ptr
  _in : Ptr
  deriving DecidableEq, Repr

/-- Class `BaseTiExpr`: the tag of a basic type-inst. -/
structure BaseTiExpr where
  _tiid : TiExprId
  deriving DecidableEq, Repr

/-- Class `TiExpr`. -/
structure TiExpr extends Expression where
  _ranges : CtxVecPtr Ptr
  _vartype : VarType
  _set : Bool
  _ti : Option BaseTiExpr
  deriving DecidableEq, Repr

/-! ### Constructors

Each definition is the constructor of the class of the same name, with its
member initialisers. -/

/-- Constructor `Expression(loc, eid) : _ann(NULL), _loc(loc), _eid(eid)`. -/
def Expression.Expression (loc : Location) (eid : ExpressionId) : MiniZinc.Expression :=
  { _ann := NULL, _loc := loc, _eid := eid }

/-- Constructor `Annotation(loc, e) : Expression(loc,E_ANN), _e(e), _a(NULL)`. -/
def Annotation.Annotation (loc : Location) (e : Ptr) : MiniZinc.Annotation :=
  { toExpression := Expression.Expression loc .E_ANN, _e := e, _a := NULL }

/-- Constructor `IntLit(loc, v) : Expression(loc,E_INTLIT), _v(v)`. -/
def IntLit.IntLit (loc : Location) (v : Int) : MiniZinc.IntLit :=
  { toExpression := Expression.Expression loc .E_INTLIT, _v := v }

/-- Constructor `FloatLit(loc, v) : Expression(loc,E_FLOATLIT), _v(v)`. -/
def FloatLit.FloatLit (loc : Location) (v : Double) : MiniZinc.FloatLit :=
  { toExpression := Expression.Expression loc .E_FLOATLIT, _v := v }

/-- Constructor `SetLit(loc) : Expression(loc,E_SETLIT)`; `_v` is not
initialised. -/
def SetLit.SetLit (raw : MiniZinc.SetLit) (loc : Location) : MiniZinc.SetLit :=
  { raw with toExpression := Expression.Expression loc .E_SETLIT }

/-- Constructor `BoolLit(loc, v) : Expression(loc,E_BOOLLIT), _v(v)`. -/
def BoolLit.BoolLit (loc : Location) (v : Bool) : MiniZinc.BoolLit :=
  { toExpression := Expression.Expression loc .E_BOOLLIT, _v := v }

/-- Constructor `StringLit(loc, v) : Expression(loc,E_STRINGLIT), _v(v)`. -/
def StringLit.StringLit (loc : Location) (v : CtxStringH) : MiniZinc.StringLit :=
  { toExpression := Expression.Expression loc .E_STRINGLIT, _v := v }

/-- Constructor `Id(loc, v, decl) : Expression(loc,E_ID), _v(v), _decl(decl)`. -/
def Id.Id (loc : Location) (v : CtxStringH) (decl : Ptr) : MiniZinc.Id :=
  { toExpression := Expression.Expression loc .E_ID, _v := v, _decl := decl }

/-- Constructor `AnonVar(loc) : Expression(loc,E_ANON)`. -/
def AnonVar.AnonVar (loc : Location) : MiniZinc.AnonVar :=
  { toExpression := Expression.Expression loc .E_ANON }

/-- Constructor `ArrayLit(loc) : Expression(loc,E_ARRAYLIT)`; `_v` and `_dims`
are not initialised. -/
def ArrayLit.ArrayLit (raw : MiniZinc.ArrayLit) (loc : Location) : MiniZinc.ArrayLit :=
  { raw with toExpression := Expression.Expression loc .E_ARRAYLIT }

/-- Constructor `ArrayAccess(loc) : Expression(loc,E_ARRAYACCESS)`; `_v` and
`_idx` are not initialised. -/
def ArrayAccess.ArrayAccess (raw : MiniZinc.ArrayAccess) (loc : Location) :
    MiniZinc.ArrayAccess :=
  { raw with toExpression := Expression.Expression loc .E_ARRAYACCESS }

/-- Constructor `Comprehension(loc) : Expression(loc,E_COMP)`; the members of
the class are not initialised. -/
def Comprehension.Comprehension (raw : MiniZinc.Comprehension) (loc : Location) :
    MiniZinc.Comprehension :=
  { raw with toExpression := Expression.Expression loc .E_COMP }

/-- Constructor `ITE(loc) : Expression(loc,E_ITE)`; `_e_if` and `_e_else` are
not initialised. -/
def ITE.ITE (raw : MiniZinc.ITE) (loc : Location) : MiniZinc.ITE :=
  { raw with toExpression := Expression.Expression loc .E_ITE }

/-- Constructor
`BinOp(loc, e0, op, e1) : Expression(loc,E_BINOP), _e0(e0), _e1(e1), _op(op)`. -/
def BinOp.BinOp (loc : Location) (e0 : Ptr) (op : BinOpType) (e1 : Ptr) : MiniZinc.BinOp :=
  { toExpression := Expression.Expression loc .E_BINOP, _e0 := e0, _e1 := e1, _op := op }

/-- Constructor `UnOp(loc, op, e) : Expression(loc,E_UNOP), _e0(e), _op(op)`. -/
def UnOp.UnOp (loc : Location) (op : UnOpType) (e : Ptr) : MiniZinc.UnOp :=
  { toExpression := Expression.Expression loc .E_UNOP, _e0 := e, _op := op }

/-- Constructor `Call(loc) : Expression(loc, E_CALL)`; `_id`, `_args` and
`_decl` are not initialised. -/
def Call.Call (raw : MiniZinc.Call) (loc : Location) : MiniZinc.Call :=
  { raw with toExpression := Expression.Expression loc .E_CALL }

/-- Constructor `VarDecl(loc) : Expression(loc,E_VARDECL)`; `_ti`, `_id` and
`_e` are not initialised. -/
def VarDecl.VarDecl (raw : MiniZinc.VarDecl) (loc : Location) : MiniZinc.VarDecl :=
  { raw with toExpression := Expression.Expression loc .E_VARDECL }

/-- Constructor `Let(loc) : Expression(loc,E_LET)`; `_let` and `_in` are not
initialised. -/
def Let.Let (raw : MiniZinc.Let) (loc : Location) : MiniZinc.Let :=
  { raw with toExpression := Expression.Expression loc .E_LET }

/-- Constructor `TiExpr(loc, ranges, vartype, set, ti) : Expression(loc,E_TI),
_ranges(ranges), _vartype(vartype), _set(set), _ti(ti)`. -/
def TiExpr.TiExpr (loc : Location) (ranges : CtxVecPtr Ptr) (vartype : VarType)
    (set : Bool) (ti : Option BaseTiExpr) : MiniZinc.TiExpr :=
  { toExpression := Expression.Expression loc .E_TI,
    _ranges := ranges, _vartype := vartype, _set := set, _ti := ti }

/-! ### Expression nodes and narrowing -/

/-- The object behind an `Expression*` handle: an object of one of the
concrete classes. -/
inductive ExprNode
  | Annotation (o : MiniZinc.Annotation)
  | IntLit (o : MiniZinc.IntLit)
  | FloatLit (o : MiniZinc.FloatLit)
  | SetLit (o : MiniZinc.SetLit)
  | BoolLit (o : MiniZinc.BoolLit)
  | StringLit (o : MiniZinc.StringLit)
  | Id (o : MiniZinc.Id)
  | AnonVar (o : MiniZinc.AnonVar)
  | ArrayLit (o : MiniZinc.ArrayLit)
  | ArrayAccess (o : MiniZinc.ArrayAccess)
  | Comprehension (o : MiniZinc.Comprehension)
  | ITE (o : MiniZinc.ITE)
  | BinOp (o : MiniZinc.BinOp)
  | UnOp (o : MiniZinc.UnOp)
  | Call (o : MiniZinc.Call)
  | VarDecl (o : MiniZinc.VarDecl)
  | Let (o : MiniZinc.Let)
  | TiExpr (o : MiniZinc.TiExpr)
  deriving DecidableEq, Repr

/-- The `Expression` base-class subobject of a node. -/
def ExprNode.toExpression : ExprNode → MiniZinc.Expression
  | ExprNode.Annotation o => o.toExpression
  | .IntLit o => o.toExpression
  | .FloatLit o => o.toExpression
  | .SetLit o => o.toExpression
  | .BoolLit o => o.toExpression
  | .StringLit o => o.toExpression
  | .Id o => o.toExpression
  | .AnonVar o => o.toExpression
  | .ArrayLit o => o.toExpression
  | .ArrayAccess o => o.toExpression
  | .Comprehension o => o.toExpression
  | .ITE o => o.toExpression
  | .BinOp o => o.toExpression
  | .UnOp o => o.toExpression
  | .Call o => o.toExpression
  | .VarDecl o => o.toExpression
  | .Let o => o.toExpression
  | .TiExpr o => o.toExpression

/-- The class a node is an object of. -/
def ExprNode.cls : ExprNode → ExprClass
  | ExprNode.Annotation _ => ExprClass.Annotation
  | .IntLit _ => .IntLit
  | .FloatLit _ => .FloatLit
  | .SetLit _ => .SetLit
  | .BoolLit _ => .BoolLit
  | .StringLit _ => .StringLit
  | .Id _ => .Id
  | .AnonVar _ => .AnonVar
  | .ArrayLit _ => .ArrayLit
  | .ArrayAccess _ => .ArrayAccess
  | .Comprehension _ => .Comprehension
  | .ITE _ => .ITE
  | .BinOp _ => .BinOp
  | .UnOp _ => .UnOp
  | .Call _ => .Call
  | .VarDecl _ => .VarDecl
  | .Let _ => .Let
  | .TiExpr _ => .TiExpr

/-- Member `Expression::isa<T>`: `_eid==T::eid`. -/
def Expression.isa (T : ExprClass) (self : ExprNode) : Bool :=
  self.toExpression._eid == T.eid

/-- Member `Expression::cast<T>` (both overloads): `assert(isa<T>())`, then the
object itself, viewed as a `T`. -/
def Expression.cast (T : ExprClass) (self : ExprNode) : Except String ExprNode := do
  assert (Expression.isa T self) "isa<T>()"
  return self

/-- Member `Expression::dyn_cast<T>` (both overloads): the object itself,
viewed as a `T`, when `isa<T>()`, and `NULL` otherwise. -/
def Expression.dyn_cast (T : ExprClass) (self : ExprNode) : Option ExprNode :=
  if Expression.isa T self then some self else none

/-! ### Queries of `TiExpr`

All five are `const` members. Dereferencing a `NULL` member is undefined, which
is the result `none`. -/

/-- Member `TiExpr::ispar`: `_vartype==VT_PAR`. -/
def TiExpr.ispar (self : MiniZinc.TiExpr) : Bool :=
  self._vartype == VarType.VT_PAR

/-- Member `TiExpr::isvar`: `_vartype==VT_VAR`. -/
def TiExpr.isvar (self : MiniZinc.TiExpr) : Bool :=
  self._vartype == VarType.VT_VAR

/-- Member `TiExpr::isset`: `_set`. -/
def TiExpr.isset (self : MiniZinc.TiExpr) : Bool :=
  self._set

/-- Member `TiExpr::isarray`: `!_ranges->empty()`. -/
def TiExpr.isarray (self : MiniZinc.TiExpr) : Option Bool :=
  match self._ranges with
  | none => none
  | some ranges => some (!ranges.isEmpty)

/-- Member `TiExpr::isann`:
`ispar() && (!isarray()) && (!isset()) && _ti->_tiid == BaseTiExpr::TI_ANN`,
the operands of `&&` evaluated left to right until one is false. -/
def TiExpr.isann (self : MiniZinc.TiExpr) : Option Bool :=
  if !self.ispar then some false
  else
    match self.isarray with
    | none => none
    | some true => some false
    | some false =>
      if self.isset then some false
      else
        match self._ti with
        | none => none
        | some ti => some (ti._tiid == TiExprId.TI_ANN)

/-! ## Items -/

/-- Class `Item`: the members common to all items. -/
structure Item where
  _loc : Location
  _iid : ItemId
  deriving DecidableEq, Repr

/-- Class `IncludeI`. -/
structure IncludeI extends Item where
  _f : CtxStringH
  _m : Ptr
  _own : Bool
  deriving DecidableEq, Repr

/-- Class `VarDeclI`. -/
structure VarDeclI extends Item where
  _e : Ptr
  deriving DecidableEq, Repr

/-- Class `AssignI`. -/
structure AssignI extends Item where
  _id : CtxStringH
  _e : Ptr
  deriving DecidableEq, Repr

/-- Class `ConstraintI`. -/
structure ConstraintI extends Item where
  _e : Ptr
  deriving DecidableEq, Repr

/-- Class `SolveI`. -/
structure SolveI extends Item where
  _ann : Ptr
  _e : Ptr
  _st : SolveType
  deriving DecidableEq, Repr

/-- Class `OutputI`. -/
structure OutputI extends Item where
  _e : Ptr
  deriving DecidableEq, Repr

/-- Class `PredicateI`. -/
structure PredicateI extends Item where
  _id : CtxStringH
  _params : CtxVecPtr Ptr
  _ann : Ptr
  _e : Ptr
  _test : Bool
  deriving DecidableEq, Repr

/-- Class `FunctionI`. -/
structure FunctionI extends Item where
  _id : CtxStringH
  _ti : Ptr
  _params : CtxVecPtr Ptr
  _ann : Ptr
  _e : Ptr
  deriving DecidableEq, Repr

/-! ### Constructors

Every constructor of an item class initialises the `Item` base only. -/

/-- Constructor `Item(loc, iid) : _loc(loc), _iid(iid)`. -/
def Item.Item (loc : Location) (iid : ItemId) : MiniZinc.Item :=
  { _loc := loc, _iid := iid }

/-- Constructor `IncludeI(loc) : Item(loc, II_INC)`. -/
def IncludeI.IncludeI (raw : MiniZinc.IncludeI) (loc : Location) : MiniZinc.IncludeI :=
  { raw with toItem := Item.Item loc .II_INC }

/-- Constructor `VarDeclI(loc) : Item(loc, II_VD)`. -/
def VarDeclI.VarDeclI (raw : MiniZinc.VarDeclI) (loc : Location) : MiniZinc.VarDeclI :=
  { raw with toItem := Item.Item loc .II_VD }

/-- Constructor `AssignI(loc) : Item(loc, II_ASN)`. -/
def AssignI.AssignI (raw : MiniZinc.AssignI) (loc : Location) : MiniZinc.AssignI :=
  { raw with toItem := Item.Item loc .II_ASN }

/-- Constructor `ConstraintI(loc) : Item(loc, II_CON)`. -/
def ConstraintI.ConstraintI (raw : MiniZinc.ConstraintI) (loc : Location) :
    MiniZinc.ConstraintI :=
  { raw with toItem := Item.Item loc .II_CON }

/-- Constructor `SolveI(loc) : Item(loc, II_SOL)`. -/
def SolveI.SolveI (raw : MiniZinc.SolveI) (loc : Location) : MiniZinc.SolveI :=
  { raw with toItem := Item.Item loc .II_SOL }

/-- Constructor `OutputI(loc) : Item(loc, II_OUT)`. -/
def OutputI.OutputI (raw : MiniZinc.OutputI) (loc : Location) : MiniZinc.OutputI :=
  { raw with toItem := Item.Item loc .II_OUT }

/-- Constructor `PredicateI(loc) : Item(loc, II_PRED)`. -/
def PredicateI.PredicateI (raw : MiniZinc.PredicateI) (loc : Location) :
    MiniZinc.PredicateI :=
  { raw with toItem := Item.Item loc .II_PRED }

/-- Constructor `FunctionI(loc) : Item(loc, II_FUN)`. -/
def FunctionI.FunctionI (raw : MiniZinc.FunctionI) (loc : Location) : MiniZinc.FunctionI :=
  { raw with toItem := Item.Item loc .II_FUN }

/-! ### Item nodes and narrowing -/

/-- The object behind an `Item*` handle: an object of one of the concrete
classes. -/
inductive ItemNode
  | IncludeI (o : MiniZinc.IncludeI)
  | VarDeclI (o : MiniZinc.VarDeclI)
  | AssignI (o : MiniZinc.AssignI)
  | ConstraintI (o : MiniZinc.ConstraintI)
  | SolveI (o : MiniZinc.SolveI)
  | OutputI (o : MiniZinc.OutputI)
  | PredicateI (o : MiniZinc.PredicateI)
  | FunctionI (o : MiniZinc.FunctionI)
  deriving DecidableEq, Repr

/-- The `Item` base-class subobject of a node. -/
def ItemNode.toItem : ItemNode → MiniZinc.Item
  | .IncludeI o => o.toItem
  | .VarDeclI o => o.toItem
  | .AssignI o => o.toItem
  | .ConstraintI o => o.toItem
  | .SolveI o => o.toItem
  | .OutputI o => o.toItem
  | .PredicateI o => o.toItem
  | .FunctionI o => o.toItem

/-- The class a node is an object of. -/
def ItemNode.cls : ItemNode → ItemClass
  | .IncludeI _ => .IncludeI
  | .VarDeclI _ => .VarDeclI
  | .AssignI _ => .AssignI
  | .ConstraintI _ => .ConstraintI
  | .SolveI _ => .SolveI
  | .OutputI _ => .OutputI
  | .PredicateI _ => .PredicateI
  | .FunctionI _ => .FunctionI

/-- Member `Item::isa<T>`: `_iid==T::iid`. -/
def Item.isa (T : ItemClass) (self : ItemNode) : Bool :=
  self.toItem._iid == T.iid

/-- Member `Item::cast<T>` (both overloads): `assert(isa<T>())`, then the
object itself, viewed as a `T`. -/
def Item.cast (T : ItemClass) (self : ItemNode) : Except String ItemNode := do
  assert (Item.isa T self) "isa<T>()"
  return self

/-- Member `Item::dyn_cast<T>` (both overloads): the object itself, viewed as a
`T`, when `isa<T>()`, and `NULL` otherwise. -/
def Item.dyn_cast (T : ItemClass) (self : ItemNode) : Option ItemNode :=
  if Item.isa T self then some self else none

/-- Member `IncludeI::setModel(m, own)`:
`assert(_m==NULL); _m = m; _own = own;`. The result is the object after the
call. -/
def IncludeI.setModel (self : MiniZinc.IncludeI) (m : Ptr) (own : Bool := true) :
    Except String MiniZinc.IncludeI := do
  assert (self._m == NULL) "_m==NULL"
  return { self with _m := m, _own := own }

/-! ## Constructor calls

The nodes the constructors build, for statements that range over every
class. -/

/-- A call of the constructor of a concrete expression class, with its
arguments (and the raw storage, where the constructor leaves members
uninitialised). -/
inductive ExprCtor
  | Annotation (loc : Location) (e : Ptr)
  | IntLit (loc : Location) (v : Int)
  | FloatLit (loc : Location) (v : Double)
  | SetLit (raw : MiniZinc.SetLit) (loc : Location)
  | BoolLit (loc : Location) (v : Bool)
  | StringLit (loc : Location) (v : CtxStringH)
  | Id (loc : Location) (v : CtxStringH) (decl : Ptr)
  | AnonVar (loc : Location)
  | ArrayLit (raw : MiniZinc.ArrayLit) (loc : Location)
  | ArrayAccess (raw : MiniZinc.ArrayAccess) (loc : Location)
  | Comprehension (raw : MiniZinc.Comprehension) (loc : Location)
  | ITE (raw : MiniZinc.ITE) (loc : Location)
  | BinOp (loc : Location) (e0 : Ptr) (op : BinOpType) (e1 : Ptr)
  | UnOp (loc : Location) (op : UnOpType) (e : Ptr)
  | Call (raw : MiniZinc.Call) (loc : Location)
  | VarDecl (raw : MiniZinc.VarDecl) (loc : Location)
  | Let (raw : MiniZinc.Let) (loc : Location)
  | TiExpr (loc : Location) (ranges : CtxVecPtr Ptr) (vartype : VarType) (set : Bool)
      (ti : Option BaseTiExpr)
  deriving DecidableEq, Repr

/-- The class whose constructor is called. -/
def ExprCtor.cls : ExprCtor → ExprClass
  | ExprCtor.Annotation .. => ExprClass.Annotation
  | .IntLit .. => .IntLit
  | .FloatLit .. => .FloatLit
  | .SetLit .. => .SetLit
  | .BoolLit .. => .BoolLit
  | .StringLit .. => .StringLit
  | .Id .. => .Id
  | .AnonVar .. => .AnonVar
  | .ArrayLit .. => .ArrayLit
  | .ArrayAccess .. => .ArrayAccess
  | .Comprehension .. => .Comprehension
  | .ITE .. => .ITE
  | .BinOp .. => .BinOp
  | .UnOp .. => .UnOp
  | .Call .. => .Call
  | .VarDecl .. => .VarDecl
  | .Let .. => .Let
  | .TiExpr .. => .TiExpr

/-- The node the constructor call builds. -/
def ExprCtor.build : ExprCtor → ExprNode
  | ExprCtor.Annotation loc e => ExprNode.Annotation ( Annotation.Annotation loc e)
  | .IntLit loc v => .IntLit (IntLit.IntLit loc v)
  | .FloatLit loc v => .FloatLit (FloatLit.FloatLit loc v)
  | .SetLit raw loc => .SetLit (SetLit.SetLit raw loc)
  | .BoolLit loc v => .BoolLit (BoolLit.BoolLit loc v)
  | .StringLit loc v => .StringLit (StringLit.StringLit loc v)
  | .Id loc v decl => .Id (Id.Id loc v decl)
  | .AnonVar loc => .AnonVar (AnonVar.AnonVar loc)
  | .ArrayLit raw loc => .ArrayLit (ArrayLit.ArrayLit raw loc)
  | .ArrayAccess raw loc => .ArrayAccess (ArrayAccess.ArrayAccess raw loc)
  | .Comprehension raw loc => .Comprehension (Comprehension.Comprehension raw loc)
  | .ITE raw loc => .ITE (ITE.ITE raw loc)
  | .BinOp loc e0 op e1 => .BinOp (BinOp.BinOp loc e0 op e1)
  | .UnOp loc op e => .UnOp (UnOp.UnOp loc op e)
  | .Call raw loc => .Call (Call.Call raw loc)
  | .VarDecl raw loc => .VarDecl (VarDecl.VarDecl raw loc)
  | .Let raw loc => .Let (Let.Let raw loc)
  | .TiExpr loc ranges vartype set ti => .TiExpr (TiExpr.TiExpr loc ranges vartype set ti)

/-- A call of the constructor of a concrete item class: the raw storage and
the location. -/
inductive ItemCtor
  | IncludeI (raw : MiniZinc.IncludeI) (loc : Location)
  | VarDeclI (raw : MiniZinc.VarDeclI) (loc : Location)
  | AssignI (raw : MiniZinc.AssignI) (loc : Location)
  | ConstraintI (raw : MiniZinc.ConstraintI) (loc : Location)
  | SolveI (raw : MiniZinc.SolveI) (loc : Location)
  | OutputI (raw : MiniZinc.OutputI) (loc : Location)
  | PredicateI (raw : MiniZinc.PredicateI) (loc : Location)
  | FunctionI (raw : MiniZinc.FunctionI) (loc : Location)
  deriving DecidableEq, Repr

/-- The class whose constructor is called. -/
def ItemCtor.cls : ItemCtor → ItemClass
  | .IncludeI .. => .IncludeI
  | .VarDeclI .. => .VarDeclI
  | .AssignI .. => .AssignI
  | .ConstraintI .. => .ConstraintI
  | .SolveI .. => .SolveI
  | .OutputI .. => .OutputI
  | .PredicateI .. => .PredicateI
  | .FunctionI .. => .FunctionI

/-- The node the constructor call builds. -/
def ItemCtor.build : ItemCtor → ItemNode
  | .IncludeI raw loc => .IncludeI (IncludeI.IncludeI raw loc)
  | .VarDeclI raw loc => .VarDeclI (VarDeclI.VarDeclI raw loc)
  | .AssignI raw loc => .AssignI (AssignI.AssignI raw loc)
  | .ConstraintI raw loc => .ConstraintI (ConstraintI.ConstraintI raw loc)
  | .SolveI raw loc => .SolveI (SolveI.SolveI raw loc)
  | .OutputI raw loc => .OutputI (OutputI.OutputI raw loc)
  | .PredicateI raw loc => .PredicateI (PredicateI.PredicateI raw loc)
  | .FunctionI raw loc => .FunctionI (FunctionI.FunctionI raw loc)

/-! ## Operations as steps on a node

For the statements about what an operation leaves of a node, each member
function of the header is a step: the value it returns and the object after the
call. A `const` member and the narrowing members write no member of the object.
A call that does not return (a failed assertion, a `NULL` member dereferenced)
has no step, and neither has a member called on a node whose class does not
declare it. -/

/-- The value a member function returns: nothing, a `bool`, or a view of a
node (`NULL` or the node). -/
inductive OpResult (Node : Type)
  | void
  | bool (b : Bool)
  | view (v : Option Node)
  deriving DecidableEq, Repr

/-- The member functions the header defines on expression nodes: the three
narrowing members of `Expression` and the five queries of `TiExpr`. -/
inductive ExprOp
  | isa (T : ExprClass)
  | cast (T : ExprClass)
  | dyn_cast (T : ExprClass)
  | ispar
  | isvar
  | isset
  | isarray
  | isann
  deriving DecidableEq, Repr

/-- One call on an expression node: the returned value and the node after the
call. -/
def ExprOp.call : ExprOp → ExprNode → Option (OpResult ExprNode × ExprNode)
  | .isa T, n => some (.bool (Expression.isa T n), n)
  | .cast T, n =>
    match Expression.cast T n with
    | .ok v => some (.view (some v), n)
    | .error _ => none
  | .dyn_cast T, n => some (.view (Expression.dyn_cast T n), n)
  | .ispar, .TiExpr o => some (.bool o.ispar, .TiExpr o)
  | .isvar, .TiExpr o => some (.bool o.isvar, .TiExpr o)
  | .isset, .TiExpr o => some (.bool o.isset, .TiExpr o)
  | .isarray, .TiExpr o => o.isarray.map fun b => (.bool b, .TiExpr o)
  | .isann, .TiExpr o => o.isann.map fun b => (.bool b, .TiExpr o)
  | _, _ => none

/-- A sequence of calls on one expression node, each on the node the previous
call left: the node after the last call. -/
def ExprOp.callAll : List ExprOp → ExprNode → Option ExprNode
  | [], n => some n
  | op :: ops, n =>
    match op.call n with
    | some (_, n1) => ExprOp.callAll ops n1
    | none => none

/-- The member functions the header defines on item nodes: the three narrowing
members of `Item` and `IncludeI::setModel`. -/
inductive ItemOp
  | isa (T : ItemClass)
  | cast (T : ItemClass)
  | dyn_cast (T : ItemClass)
  | setModel (m : Ptr) (own : Bool)
  deriving DecidableEq, Repr

/-- One call on an item node: the returned value and the node after the
call. -/
def ItemOp.call : ItemOp → ItemNode → Option (OpResult ItemNode × ItemNode)
  | .isa T, n => some (.bool (Item.isa T n), n)
  | .cast T, n =>
    match Item.cast T n with
    | .ok v => some (.view (some v), n)
    | .error _ => none
  | .dyn_cast T, n => some (.view (Item.dyn_cast T n), n)
  | .setModel m own, .IncludeI o =>
    match o.setModel m own with
    | .ok o1 => some (.void, .IncludeI o1)
    | .error _ => none
  | .setModel _ _, _ => none

/-- A sequence of calls on one item node, each on the node the previous call
left: the node after the last call. -/
def ItemOp.callAll : List ItemOp → ItemNode → Option ItemNode
  | [], n => some n
  | op :: ops, n =>
    match op.call n with
    | some (_, n1) => ItemOp.callAll ops n1
    | none => none

/-! ## Sample values -/

/-- A location: lines 3 to 3, columns 1 to 22, of the file at address 64. -/
def sampleLocation : Location :=
  { filename := some 64, first_line := 3, first_column := 1, last_line := 3, last_column := 22 }

/-- An include item without a model: the constructor `IncludeI(loc)` run on
storage whose `IncludeI` members hold the file name handle 5, `NULL` and
`false`. -/
def sampleInclude : MiniZinc.IncludeI :=
  IncludeI.IncludeI
    { _loc := sampleLocation, _iid := ItemId.II_FUN, _f := ⟨5⟩, _m := NULL, _own := false }
    sampleLocation

/-! ## Factories and `addRanges` of `TiExpr`

The header declares these members; their bodies are not part of it. The
context argument `ctx` only serves the allocation and has no counterpart here:
a factory is modelled by the object it returns. -/

/-- Modelled from the spec: `TiExpr::var(ctx, loc, ranges, ti)`, declared in the
header as "Allocate var ti from context" and defined outside it. The
factories "all reduce to one canonical representation: a range sequence (empty
⇒ scalar) + var-kind + set-flag + basic-type payload". -/
def TiExpr.var (loc : Location) (ranges : List Ptr) (ti : Option BaseTiExpr) :
    MiniZinc.TiExpr :=
  TiExpr.TiExpr loc (some ranges) VarType.VT_VAR false ti

/-- Modelled from the spec: the overload `TiExpr::var(ctx, loc, ti)` without
ranges, defined outside the header: a scalar, the range sequence is empty. -/
def TiExpr.var0 (loc : Location) (ti : Option BaseTiExpr) : MiniZinc.TiExpr :=
  TiExpr.TiExpr loc (some []) VarType.VT_VAR false ti

/-- Modelled from the spec: the overload `TiExpr::var(ctx, loc, range0, ti)` with
one range, defined outside the header. -/
def TiExpr.var1 (loc : Location) (range0 : Ptr) (ti : Option BaseTiExpr) :
    MiniZinc.TiExpr :=
  TiExpr.TiExpr loc (some [range0]) VarType.VT_VAR false ti

/-- Modelled from the spec: the overload
`TiExpr::var(ctx, loc, range0, range1, ti)` with two ranges, defined outside the
header. -/
def TiExpr.var2 (loc : Location) (range0 range1 : Ptr) (ti : Option BaseTiExpr) :
    MiniZinc.TiExpr :=
  TiExpr.TiExpr loc (some [range0, range1]) VarType.VT_VAR false ti

/-- Modelled from the spec: `TiExpr::par(ctx, loc, ranges, ti)`, declared in the
header as "Allocate par ti from context" and defined outside it. The
factories "all reduce to one canonical representation: a range sequence (empty
⇒ scalar) + var-kind + set-flag + basic-type payload". -/
def TiExpr.par (loc : Location) (ranges : List Ptr) (ti : Option BaseTiExpr) :
    MiniZinc.TiExpr :=
  TiExpr.TiExpr loc (some ranges) VarType.VT_PAR false ti

/-- Modelled from the spec: the overload `TiExpr::par(ctx, loc, ti)` without
ranges, defined outside the header: a scalar, the range sequence is empty. -/
def TiExpr.par0 (loc : Location) (ti : Option BaseTiExpr) : MiniZinc.TiExpr :=
  TiExpr.TiExpr loc (some []) VarType.VT_PAR false ti

/-- Modelled from the spec: the overload `TiExpr::par(ctx, loc, range0, ti)` with
one range, defined outside the header. -/
def TiExpr.par1 (loc : Location) (range0 : Ptr) (ti : Option BaseTiExpr) :
    MiniZinc.TiExpr :=
  TiExpr.TiExpr loc (some [range0]) VarType.VT_PAR false ti

/-- Modelled from the spec: the overload
`TiExpr::par(ctx, loc, range0, range1, ti)` with two ranges, defined outside the
header. -/
def TiExpr.par2 (loc : Location) (range0 range1 : Ptr) (ti : Option BaseTiExpr) :
    MiniZinc.TiExpr :=
  TiExpr.TiExpr loc (some [range0, range1]) VarType.VT_PAR false ti

/-- Modelled from the spec: `TiExpr::varset(ctx, loc, ranges, ti)`, declared in the
header as "Allocate var set ti from context" and defined outside it. The
factories "all reduce to one canonical representation: a range sequence (empty
⇒ scalar) + var-kind + set-flag + basic-type payload". -/
def TiExpr.varset (loc : Location) (ranges : List Ptr) (ti : Option BaseTiExpr) :
    MiniZinc.TiExpr :=
  TiExpr.TiExpr loc (some ranges) VarType.VT_VAR true ti

/-- Modelled from the spec: the overload `TiExpr::varset(ctx, loc, ti)` without
ranges, defined outside the header: a scalar, the range sequence is empty. -/
def TiExpr.varset0 (loc : Location) (ti : Option BaseTiExpr) : MiniZinc.TiExpr :=
  TiExpr.TiExpr loc (some []) VarType.VT_VAR true ti

/-- Modelled from the spec: the overload `TiExpr::varset(ctx, loc, range0, ti)` with
one range, defined outside the header. -/
def TiExpr.varset1 (loc : Location) (range0 : Ptr) (ti : Option BaseTiExpr) :
    MiniZinc.TiExpr :=
  TiExpr.TiExpr loc (some [range0]) VarType.VT_VAR true ti

/-- Modelled from the spec: the overload
`TiExpr::varset(ctx, loc, range0, range1, ti)` with two ranges, defined outside the
header. -/
def TiExpr.varset2 (loc : Location) (range0 range1 : Ptr) (ti : Option BaseTiExpr) :
    MiniZinc.TiExpr :=
  TiExpr.TiExpr loc (some [range0, range1]) VarType.VT_VAR true ti

/-- Modelled from the spec: `TiExpr::parset(ctx, loc, ranges, ti)`, declared in the
header as "Allocate par set ti from context" and defined outside it. The
factories "all reduce to one canonical representation: a range sequence (empty
⇒ scalar) + var-kind + set-flag + basic-type payload". -/
def TiExpr.parset (loc : Location) (ranges : List Ptr) (ti : Option BaseTiExpr) :
    MiniZinc.TiExpr :=
  TiExpr.TiExpr loc (some ranges) VarType.VT_PAR true ti

/-- Modelled from the spec: the overload `TiExpr::parset(ctx, loc, ti)` without
ranges, defined outside the header: a scalar, the range sequence is empty. -/
def TiExpr.parset0 (loc : Location) (ti : Option BaseTiExpr) : MiniZinc.TiExpr :=
  TiExpr.TiExpr loc (some []) VarType.VT_PAR true ti

/-- Modelled from the spec: the overload `TiExpr::parset(ctx, loc, range0, ti)` with
one range, defined outside the header. -/
def TiExpr.parset1 (loc : Location) (range0 : Ptr) (ti : Option BaseTiExpr) :
    MiniZinc.TiExpr :=
  TiExpr.TiExpr loc (some [range0]) VarType.VT_PAR true ti

/-- Modelled from the spec: the overload
`TiExpr::parset(ctx, loc, range0, range1, ti)` with two ranges, defined outside the
header. -/
def TiExpr.parset2 (loc : Location) (range0 range1 : Ptr) (ti : Option BaseTiExpr) :
    MiniZinc.TiExpr :=
  TiExpr.TiExpr loc (some [range0, range1]) VarType.VT_PAR true ti

/-- Modelled from the spec: `TiExpr::addRanges(ctx, ranges)`, declared in the
header as "Add ranges to expression" and defined outside it. It "appends
dimensions to an existing array type-inst" and "must preserve
previously-appended ranges' order and append at the end". The result is the
object after the call; with `_ranges` at `NULL` there is no sequence to append
to and the call is undefined. -/
def TiExpr.addRanges (self : MiniZinc.TiExpr) (ranges : List Ptr) : Option MiniZinc.TiExpr :=
  match self._ranges with
  | none => none
  | some rs => some { self with _ranges := some (rs ++ ranges) }

/-! ## The visitor `EVisitor`

Every member of `EVisitor` takes a node by `const` reference and has the empty
body. A member is modelled by the visitor and the node after the call. -/

/-- Class `EVisitor`; it has no data members. -/
structure EVisitor where
  deriving DecidableEq, Repr

/-- Member `EVisitor::vIntLit(const IntLit&) {}`, "Visit integer literal". -/
def EVisitor.vIntLit (self : EVisitor) (n : MiniZinc.IntLit) : EVisitor × MiniZinc.IntLit :=
  (self, n)

/-- Member `EVisitor::vFloatLit(const FloatLit&) {}`, "Visit floating point literal". -/
def EVisitor.vFloatLit (self : EVisitor) (n : MiniZinc.FloatLit) : EVisitor × MiniZinc.FloatLit :=
  (self, n)

/-- Member `EVisitor::vBoolLit(const BoolLit&) {}`, "Visit Boolean literal". -/
def EVisitor.vBoolLit (self : EVisitor) (n : MiniZinc.BoolLit) : EVisitor × MiniZinc.BoolLit :=
  (self, n)

/-- Member `EVisitor::vSetLit(const SetLit&) {}`, "Visit set literal". -/
def EVisitor.vSetLit (self : EVisitor) (n : MiniZinc.SetLit) : EVisitor × MiniZinc.SetLit :=
  (self, n)

/-- Member `EVisitor::vStringLit(const StringLit&) {}`, "Visit string literal". -/
def EVisitor.vStringLit (self : EVisitor) (n : MiniZinc.StringLit) : EVisitor × MiniZinc.StringLit :=
  (self, n)

/-- Member `EVisitor::vId(const Id&) {}`, "Visit identifier". -/
def EVisitor.vId (self : EVisitor) (n : MiniZinc.Id) : EVisitor × MiniZinc.Id :=
  (self, n)

/-- Member `EVisitor::vAnon(const AnonVar&) {}`, "Visit anonymous variable". -/
def EVisitor.vAnon (self : EVisitor) (n : MiniZinc.AnonVar) : EVisitor × MiniZinc.AnonVar :=
  (self, n)

/-- Member `EVisitor::vArrayLit(const ArrayLit&) {}`, "Visit array literal". -/
def EVisitor.vArrayLit (self : EVisitor) (n : MiniZinc.ArrayLit) : EVisitor × MiniZinc.ArrayLit :=
  (self, n)

/-- Member `EVisitor::vArrayAccess(const ArrayAccess&) {}`, "Visit array access". -/
def EVisitor.vArrayAccess (self : EVisitor) (n : MiniZinc.ArrayAccess) : EVisitor × MiniZinc.ArrayAccess :=
  (self, n)

/-- Member `EVisitor::vComprehension(const Comprehension&) {}`, "Visit array comprehension". -/
def EVisitor.vComprehension (self : EVisitor) (n : MiniZinc.Comprehension) : EVisitor × MiniZinc.Comprehension :=
  (self, n)

/-- Member `EVisitor::vITE(const ITE&) {}`, "Visit if-then-else". -/
def EVisitor.vITE (self : EVisitor) (n : MiniZinc.ITE) : EVisitor × MiniZinc.ITE :=
  (self, n)

/-- Member `EVisitor::vBinOp(const BinOp&) {}`, "Visit binary operator". -/
def EVisitor.vBinOp (self : EVisitor) (n : MiniZinc.BinOp) : EVisitor × MiniZinc.BinOp :=
  (self, n)

/-- Member `EVisitor::vUnOp(const UnOp&) {}`, "Visit unary operator". -/
def EVisitor.vUnOp (self : EVisitor) (n : MiniZinc.UnOp) : EVisitor × MiniZinc.UnOp :=
  (self, n)

/-- Member `EVisitor::vCall(const Call&) {}`, "Visit call". -/
def EVisitor.vCall (self : EVisitor) (n : MiniZinc.Call) : EVisitor × MiniZinc.Call :=
  (self, n)

/-- Member `EVisitor::vLet(const Let&) {}`, "Visit let". -/
def EVisitor.vLet (self : EVisitor) (n : MiniZinc.Let) : EVisitor × MiniZinc.Let :=
  (self, n)

/-- Member `EVisitor::vVarDecl(const VarDecl&) {}`, "Visit variable declaration". -/
def EVisitor.vVarDecl (self : EVisitor) (n : MiniZinc.VarDecl) : EVisitor × MiniZinc.VarDecl :=
  (self, n)

/-- The member functions of `EVisitor`, in the order the class declares
them. -/
inductive EVisitorMethod
  | vIntLit | vFloatLit | vBoolLit | vSetLit
  | vStringLit | vId | vAnon | vArrayLit
  | vArrayAccess | vComprehension | vITE | vBinOp
  | vUnOp | vCall | vLet | vVarDecl
  deriving DecidableEq, Repr, Fintype

/-- The class of the node a member function of `EVisitor` takes. -/
def EVisitorMethod.param : EVisitorMethod → ExprClass
  | .vIntLit => .IntLit
  | .vFloatLit => .FloatLit
  | .vBoolLit => .BoolLit
  | .vSetLit => .SetLit
  | .vStringLit => .StringLit
  | .vId => .Id
  | .vAnon => .AnonVar
  | .vArrayLit => .ArrayLit
  | .vArrayAccess => .ArrayAccess
  | .vComprehension => .Comprehension
  | .vITE => .ITE
  | .vBinOp => .BinOp
  | .vUnOp => .UnOp
  | .vCall => .Call
  | .vLet => .Let
  | .vVarDecl => .VarDecl

/-! ## The string interner of the context

`ASTContext` and the interning of strings are declared in `context.hh`; the
factories `a` that intern a name are declared in `ast.hh` and defined outside
it. -/

/-- Modelled from the spec: the string interner of `ASTContext`
(`context.hh`), "a mapping from string content to a single canonical
arena-owned storage slot". The slots are numbered from 0 in the order of
allocation; `strings` lists their contents. -/
structure ASTContext where
  strings : List String
  deriving DecidableEq, Repr

/-- Modelled from the spec: `internString(bytes) -> handle`, part of
`context.hh`: it "returns the canonical handle for identical byte content;
repeated calls with equal content return the same handle". The handle is the
number of the first slot that holds the content; a content not yet in the table
gets a new slot at the end. The result is the handle and the context after the
call. -/
def ASTContext.internString (ctx : ASTContext) (s : String) : CtxStringH × ASTContext :=
  if s ∈ ctx.strings then (⟨ctx.strings.indexOf s⟩, ctx)
  else (⟨ctx.strings.length⟩, { strings := ctx.strings ++ [s] })

/-- The context after interning the strings of a list one after the other. -/
def ASTContext.internAll (ctx : ASTContext) : List String → ASTContext
  | [] => ctx
  | s :: ss => ASTContext.internAll (ctx.internString s).2 ss

/-- Modelled from the spec: the factory `Id::a(ctx, loc, v, decl)`, declared in
the header as "Allocate from context" and defined outside it: it interns the
name and builds the node with the constructor. The result is the node and the
context after the call. -/
def Id.a (ctx : ASTContext) (loc : Location) (v : String) (decl : Ptr) :
    MiniZinc.Id × ASTContext :=
  (Id.Id loc (ctx.internString v).1 decl, (ctx.internString v).2)

/-- Modelled from the spec: the factory `StringLit::a(ctx, loc, v)`, declared
in the header as "Allocate from context" and defined outside it: it interns the
string and builds the node with the constructor. -/
def StringLit.a (ctx : ASTContext) (loc : Location) (v : String) :
    MiniZinc.StringLit × ASTContext :=
  (StringLit.StringLit loc (ctx.internString v).1, (ctx.internString v).2)

/-- Modelled from the spec: the factory `Call::a(ctx, loc, id, args, decl)`,
declared in the header and defined outside it: it builds the node with the
constructor `Call(loc)` and sets the interned name, the arguments and the
declaration. `raw` is the storage the node is built in. -/
def Call.a (raw : MiniZinc.Call) (ctx : ASTContext) (loc : Location) (id : String)
    (args : List Ptr) (decl : Ptr := NULL) : MiniZinc.Call × ASTContext :=
  ({ Call.Call raw loc with _id := (ctx.internString id).1, _args := some args, _decl := decl },
    (ctx.internString id).2)

/-! ## Annotation chains

The nodes of a context live at addresses; an annotation chain is followed
through the members `_ann` (of the annotated node) and `_a` (of each
annotation). `Expression::annotate` and the merge member of the annotation
class are declared in the header and defined outside it. A loop over a chain
has no bound in the program; here `fuel` bounds the number of links followed,
and the result `none` stands for a walk that leaves the annotations of the heap
or does not end within the bound. -/

/-- The expression nodes of a context, by address. -/
abbrev ExprHeap := Nat → Option ExprNode

/-- The heap after the node at address `a` is written. -/
def ExprHeap.set (h : ExprHeap) (a : Nat) (n : ExprNode) : ExprHeap :=
  fun x => if x = a then some n else h x

/-- The node after a write of its member `_ann`. -/
def ExprNode.setAnn : ExprNode → Ptr → ExprNode
  | ExprNode.Annotation o, p => ExprNode.Annotation { o with _ann := p }
  | ExprNode.IntLit o, p => ExprNode.IntLit { o with _ann := p }
  | ExprNode.FloatLit o, p => ExprNode.FloatLit { o with _ann := p }
  | ExprNode.SetLit o, p => ExprNode.SetLit { o with _ann := p }
  | ExprNode.BoolLit o, p => ExprNode.BoolLit { o with _ann := p }
  | ExprNode.StringLit o, p => ExprNode.StringLit { o with _ann := p }
  | ExprNode.Id o, p => ExprNode.Id { o with _ann := p }
  | ExprNode.AnonVar o, p => ExprNode.AnonVar { o with _ann := p }
  | ExprNode.ArrayLit o, p => ExprNode.ArrayLit { o with _ann := p }
  | ExprNode.ArrayAccess o, p => ExprNode.ArrayAccess { o with _ann := p }
  | ExprNode.Comprehension o, p => ExprNode.Comprehension { o with _ann := p }
  | ExprNode.ITE o, p => ExprNode.ITE { o with _ann := p }
  | ExprNode.BinOp o, p => ExprNode.BinOp { o with _ann := p }
  | ExprNode.UnOp o, p => ExprNode.UnOp { o with _ann := p }
  | ExprNode.Call o, p => ExprNode.Call { o with _ann := p }
  | ExprNode.VarDecl o, p => ExprNode.VarDecl { o with _ann := p }
  | ExprNode.Let o, p => ExprNode.Let { o with _ann := p }
  | ExprNode.TiExpr o, p => ExprNode.TiExpr { o with _ann := p }

/-- The annotation chain that starts at `p`: the addresses of its annotations
from head to tail, read through the members `_a`. -/
def annChain (h : ExprHeap) : Nat → Ptr → Option (List Nat)
  | _, none => some []
  | 0, some _ => none
  | fuel + 1, some a =>
    match h a with
    | some ( ExprNode.Annotation o) => (annChain h fuel o._a).map (fun l => a :: l)
    | _ => none

/-- Modelled from the spec: the member `merge(a)` of the annotation class,
declared in the header as "Add annotation a to end of list of annotations" and
defined outside it. It "splices b onto the tail of a's chain; must walk to the
current tail (the chain has no tail pointer) and attach there". `self` is the
address of the annotation the member is called on; the result is the heap after
the call. -/
def Annotation.merge (h : ExprHeap) : Nat → Nat → Ptr → Option ExprHeap
  | 0, _, _ => none
  | fuel + 1, self, a =>
    match h self with
    | some ( ExprNode.Annotation o) =>
      match o._a with
      | none => some (h.set self ( ExprNode.Annotation { o with _a := a }))
      | some next => Annotation.merge h fuel next a
    | _ => none

/-- Modelled from the spec: `Expression::annotate(ann)`, declared in the header
as "Add annotation ann to the expression" and defined outside it. It "appends
annotation to the node's annotation chain (tail-append, preserving discovery
order)": a node without annotations gets `ann` as its chain, and otherwise
`ann` is merged at the tail of the chain. `self` is the address of the node;
the result is the heap after the call. -/
def Expression.annotate (h : ExprHeap) (fuel : Nat) (self : Nat) (ann : Ptr) :
    Option ExprHeap :=
  match h self with
  | none => none
  | some n =>
    match n.toExpression._ann with
    | none => some (h.set self (n.setAnn ann))
    | some head => Annotation.merge h fuel head ann

/-- A heap with a binary-operator node at address 10, the annotation chains
1, 2 and 3, 4, and the single annotations 5, 6, 7; every annotation holds the
expression at address 20. -/
def sampleHeap : ExprHeap := fun x =>
  if x = 10 then
    some (ExprCtor.build (ExprCtor.BinOp sampleLocation (some 20) BinOpType.BOT_PLUS (some 20)))
  else if x = 1 then
    some ( ExprNode.Annotation { Annotation.Annotation sampleLocation (some 20) with _a := some 2 })
  else if x = 3 then
    some ( ExprNode.Annotation { Annotation.Annotation sampleLocation (some 20) with _a := some 4 })
  else if x = 2 ∨ x = 4 ∨ x = 5 ∨ x = 6 ∨ x = 7 then
    some ( ExprNode.Annotation ( Annotation.Annotation sampleLocation (some 20)))
  else none

/-! ## Basic type-insts

The classes derived from `BaseTiExpr`, with their constructors. -/

/-- The enumeration `BoolTiExpr::BoolDomain`. -/
inductive BoolDomain
  | BD_TRUE | BD_FALSE | BD_NONE
  deriving DecidableEq, Repr, Fintype

/-- Class `IntTiExpr`. -/
structure IntTiExpr extends BaseTiExpr where
  _domain : Ptr
  deriving DecidableEq, Repr

/-- Class `BoolTiExpr`. -/
structure BoolTiExpr extends BaseTiExpr where
  _domain : BoolDomain
  deriving DecidableEq, Repr

/-- Class `FloatTiExpr`. -/
structure FloatTiExpr extends BaseTiExpr where
  _domain : Ptr
  deriving DecidableEq, Repr

/-- Class `StringTiExpr`; it declares no data member. -/
structure StringTiExpr extends BaseTiExpr where
  deriving DecidableEq, Repr

/-- Class `AnnTiExpr`; it declares no data member. -/
structure AnnTiExpr extends BaseTiExpr where
  deriving DecidableEq, Repr

/-- Constructor `BaseTiExpr(tiid) : _tiid(tiid)`. -/
def BaseTiExpr.BaseTiExpr (tiid : TiExprId) : MiniZinc.BaseTiExpr :=
  { _tiid := tiid }

/-- Constructor `IntTiExpr(domain) : BaseTiExpr(TI_INT), _domain(domain)`. -/
def IntTiExpr.IntTiExpr (domain : Ptr) : MiniZinc.IntTiExpr :=
  { toBaseTiExpr := BaseTiExpr.BaseTiExpr .TI_INT, _domain := domain }

/-- Constructor `BoolTiExpr(domain) : BaseTiExpr(TI_BOOL), _domain(domain)`. -/
def BoolTiExpr.BoolTiExpr (domain : BoolDomain) : MiniZinc.BoolTiExpr :=
  { toBaseTiExpr := BaseTiExpr.BaseTiExpr .TI_BOOL, _domain := domain }

/-- Constructor `FloatTiExpr(domain) : BaseTiExpr(TI_FLOAT), _domain(domain)`. -/
def FloatTiExpr.FloatTiExpr (domain : Ptr) : MiniZinc.FloatTiExpr :=
  { toBaseTiExpr := BaseTiExpr.BaseTiExpr .TI_FLOAT, _domain := domain }

/-- Constructor `StringTiExpr(void) : BaseTiExpr(TI_STRING)`. -/
def StringTiExpr.StringTiExpr : MiniZinc.StringTiExpr :=
  { toBaseTiExpr := BaseTiExpr.BaseTiExpr .TI_STRING }

/-- Constructor `AnnTiExpr(void) : BaseTiExpr(TI_ANN)`. -/
def AnnTiExpr.AnnTiExpr : MiniZinc.AnnTiExpr :=
  { toBaseTiExpr := BaseTiExpr.BaseTiExpr .TI_ANN }

/-- The classes derived from `BaseTiExpr`, in the order the header declares
them. -/
inductive TiClass
  | IntTiExpr | BoolTiExpr | FloatTiExpr | StringTiExpr | AnnTiExpr
  deriving DecidableEq, Repr, Fintype

/-- The static member `T::tiid` of each class derived from `BaseTiExpr`. -/
def TiClass.tiid : TiClass → TiExprId
  | .IntTiExpr => .TI_INT
  | .BoolTiExpr => .TI_BOOL
  | .FloatTiExpr => .TI_FLOAT
  | .StringTiExpr => .TI_STRING
  | .AnnTiExpr => .TI_ANN

/-- The location a constructor call of an expression class is given. -/
def ExprCtor.loc : ExprCtor → Location
  | ExprCtor.Annotation loc _ => loc
  | .IntLit loc _ => loc
  | .FloatLit loc _ => loc
  | .SetLit _ loc => loc
  | .BoolLit loc _ => loc
  | .StringLit loc _ => loc
  | .Id loc _ _ => loc
  | .AnonVar loc => loc
  | .ArrayLit _ loc => loc
  | .ArrayAccess _ loc => loc
  | .Comprehension _ loc => loc
  | .ITE _ loc => loc
  | .BinOp loc _ _ _ => loc
  | .UnOp loc _ _ => loc
  | .Call _ loc => loc
  | .VarDecl _ loc => loc
  | .Let _ loc => loc
  | .TiExpr loc _ _ _ _ => loc

/-- The location a constructor call of an item class is given. -/
def ItemCtor.loc : ItemCtor → Location
  | .IncludeI _ loc => loc
  | .VarDeclI _ loc => loc
  | .AssignI _ loc => loc
  | .ConstraintI _ loc => loc
  | .SolveI _ loc => loc
  | .OutputI _ loc => loc
  | .PredicateI _ loc => loc
  | .FunctionI _ loc => loc

/-! ## Deallocation

`ASTNode` declares three public `operator delete` members, each with the empty
body; the storage of the nodes belongs to the context. -/

/-- The storage of a context: the interned strings and the expression and item
nodes, by address. -/
structure Arena where
  ctx : ASTContext
  exprs : ExprHeap
  items : Nat → Option ItemNode

/-- Member `ASTNode::operator delete(void*, ASTContext&, unsigned) {}`,
"Delete node (no-op)": the storage after the call, for the node at `p` of the
context whose storage is `mem`. -/
def ASTNode.delete_ctx (mem : Arena) (_p : Ptr) (_n : Nat) : Arena :=
  mem

/-- Member `ASTNode::operator delete(void*, size_t) {}`, "Delete node
(no-op)": the storage after the call. -/
def ASTNode.delete_size (mem : Arena) (_p : Ptr) (_size : Nat) : Arena :=
  mem

/-- Member `ASTNode::operator delete(void*, void*) {}`, "Delete node (no-op)":
the storage after the call. -/
def ASTNode.delete_placement (mem : Arena) (_p : Ptr) (_q : Ptr) : Arena :=
  mem

/-- Member `IncludeI::setModel(m, own)` with the object as it is when the call
ends, be it by return or by the abort of `assert(_m==NULL)`: the assertion
comes before the two assignments. -/
def IncludeI.setModelEnd (self : MiniZinc.IncludeI) (m : Ptr) (own : Bool := true) :
    MiniZinc.IncludeI × Except String Unit :=
  match assert (self._m == NULL) "_m==NULL" with
  | .error text => (self, .error text)
  | .ok () => ({ self with _m := m, _own := own }, .ok ())

/-! ## Parser tokens (`include/minizinc/parser.tab.hh`) -/

/-- The enumeration `yytokentype`: its enumerators with their values, in the
order of declaration. -/
def yytokentype : List (String × Nat) :=
  [("MZN_INTEGER_LITERAL", 258), ("MZN_BOOL_LITERAL", 259), ("MZN_FLOAT_LITERAL", 260),
    ("MZN_IDENTIFIER", 261), ("MZN_QUOTED_IDENTIFIER", 262), ("MZN_STRING_LITERAL", 263),
    ("MZN_TI_IDENTIFIER", 264), ("MZN_VAR", 265), ("MZN_PAR", 266), ("MZN_SVAR", 267),
    ("MZN_ANN", 268), ("MZN_ANNOTATION", 269), ("MZN_ANY", 270), ("MZN_ARRAY", 271),
    ("MZN_BOOL", 272), ("MZN_CASE", 273), ("MZN_CONSTRAINT", 274), ("MZN_DEFAULT", 275),
    ("MZN_ELSE", 276), ("MZN_ELSEIF", 277), ("MZN_ENDIF", 278), ("MZN_ENUM", 279),
    ("MZN_FLOAT", 280), ("MZN_FUNCTION", 281), ("MZN_IF", 282), ("MZN_INCLUDE", 283),
    ("MZN_INT", 284), ("MZN_LET", 285), ("MZN_MAXIMIZE", 286), ("MZN_MINIMIZE", 287),
    ("MZN_OF", 288), ("MZN_SATISFY", 289), ("MZN_OUTPUT", 290), ("MZN_PREDICATE", 291),
    ("MZN_RECORD", 292), ("MZN_SET", 293), ("MZN_SOLVE", 294), ("MZN_STRING", 295),
    ("MZN_TEST", 296), ("MZN_THEN", 297), ("MZN_TUPLE", 298), ("MZN_TYPE", 299),
    ("MZN_UNDERSCORE", 300), ("MZN_VARIANT_RECORD", 301), ("MZN_WHERE", 302),
    ("MZN_LEFT_BRACKET", 303), ("MZN_LEFT_2D_BRACKET", 304), ("MZN_RIGHT_BRACKET", 305),
    ("MZN_RIGHT_2D_BRACKET", 306), ("UNKNOWN_CHAR", 307), ("PREC_ANNO", 308), ("MZN_EQUIV", 309),
    ("MZN_RIMPL", 310), ("MZN_IMPL", 311), ("MZN_XOR", 312), ("MZN_OR", 313), ("MZN_AND", 314),
    ("MZN_NQ", 315), ("MZN_EQ", 316), ("MZN_GQ", 317), ("MZN_LQ", 318), ("MZN_GR", 319),
    ("MZN_LE", 320), ("MZN_SUPERSET", 321), ("MZN_SUBSET", 322), ("MZN_IN", 323),
    ("MZN_SYMDIFF", 324), ("MZN_DIFF", 325), ("MZN_UNION", 326), ("MZN_DOTDOT", 327),
    ("MZN_MINUS", 328), ("MZN_PLUS", 329), ("MZN_INTERSECT", 330), ("MZN_MOD", 331),
    ("MZN_IDIV", 332), ("MZN_DIV", 333), ("MZN_MULT", 334), ("MZN_NOT", 335),
    ("MZN_COLONCOLON", 336), ("MZN_PLUSPLUS", 337), ("MZN_EQUIV_QUOTED", 338),
    ("MZN_IMPL_QUOTED", 339), ("MZN_RIMPL_QUOTED", 340), ("MZN_OR_QUOTED", 341),
    ("MZN_XOR_QUOTED", 342), ("MZN_AND_QUOTED", 343), ("MZN_LE_QUOTED", 344),
    ("MZN_GR_QUOTED", 345), ("MZN_LQ_QUOTED", 346), ("MZN_GQ_QUOTED", 347),
    ("MZN_EQ_QUOTED", 348), ("MZN_NQ_QUOTED", 349), ("MZN_IN_QUOTED", 350),
    ("MZN_SUBSET_QUOTED", 351), ("MZN_SUPERSET_QUOTED", 352), ("MZN_UNION_QUOTED", 353),
    ("MZN_DIFF_QUOTED", 354), ("MZN_SYMDIFF_QUOTED", 355), ("MZN_DOTDOT_QUOTED", 356),
    ("MZN_PLUS_QUOTED", 357), ("MZN_MINUS_QUOTED", 358), ("MZN_MULT_QUOTED", 359),
    ("MZN_DIV_QUOTED", 360), ("MZN_IDIV_QUOTED", 361), ("MZN_MOD_QUOTED", 362),
    ("MZN_INTERSECT_QUOTED", 363), ("MZN_NOT_QUOTED", 364), ("MZN_COLONCOLON_QUOTED", 365),
    ("MZN_PLUSPLUS_QUOTED", 366)]

/-- The token macros: each `#define` of the header that follows the
enumeration, with the name and the value it defines, in the order of
definition. -/
def tokenDefines : List (String × Nat) :=
  [("MZN_INTEGER_LITERAL", 258), ("MZN_BOOL_LITERAL", 259), ("MZN_FLOAT_LITERAL", 260),
    ("MZN_IDENTIFIER", 261), ("MZN_QUOTED_IDENTIFIER", 262), ("MZN_STRING_LITERAL", 263),
    ("MZN_TI_IDENTIFIER", 264), ("MZN_VAR", 265), ("MZN_PAR", 266), ("MZN_SVAR", 267),
    ("MZN_ANN", 268), ("MZN_ANNOTATION", 269), ("MZN_ANY", 270), ("MZN_ARRAY", 271),
    ("MZN_BOOL", 272), ("MZN_CASE", 273), ("MZN_CONSTRAINT", 274), ("MZN_DEFAULT", 275),
    ("MZN_ELSE", 276), ("MZN_ELSEIF", 277), ("MZN_ENDIF", 278), ("MZN_ENUM", 279),
    ("MZN_FLOAT", 280), ("MZN_FUNCTION", 281), ("MZN_IF", 282), ("MZN_INCLUDE", 283),
    ("MZN_INT", 284), ("MZN_LET", 285), ("MZN_MAXIMIZE", 286), ("MZN_MINIMIZE", 287),
    ("MZN_OF", 288), ("MZN_SATISFY", 289), ("MZN_OUTPUT", 290), ("MZN_PREDICATE", 291),
    ("MZN_RECORD", 292), ("MZN_SET", 293), ("MZN_SOLVE", 294), ("MZN_STRING", 295),
    ("MZN_TEST", 296), ("MZN_THEN", 297), ("MZN_TUPLE", 298), ("MZN_TYPE", 299),
    ("MZN_UNDERSCORE", 300), ("MZN_VARIANT_RECORD", 301), ("MZN_WHERE", 302),
    ("MZN_LEFT_BRACKET", 303), ("MZN_LEFT_2D_BRACKET", 304), ("MZN_RIGHT_BRACKET", 305),
    ("MZN_RIGHT_2D_BRACKET", 306), ("UNKNOWN_CHAR", 307), ("PREC_ANNO", 308), ("MZN_EQUIV", 309),
    ("MZN_RIMPL", 310), ("MZN_IMPL", 311), ("MZN_XOR", 312), ("MZN_OR", 313), ("MZN_AND", 314),
    ("MZN_NQ", 315), ("MZN_EQ", 316), ("MZN_GQ", 317), ("MZN_LQ", 318), ("MZN_GR", 319),
    ("MZN_LE", 320), ("MZN_SUPERSET", 321), ("MZN_SUBSET", 322), ("MZN_IN", 323),
    ("MZN_SYMDIFF", 324), ("MZN_DIFF", 325), ("MZN_UNION", 326), ("MZN_DOTDOT", 327),
    ("MZN_MINUS", 328), ("MZN_PLUS", 329), ("MZN_INTERSECT", 330), ("MZN_MOD", 331),
    ("MZN_IDIV", 332), ("MZN_DIV", 333), ("MZN_MULT", 334), ("MZN_NOT", 335),
    ("MZN_COLONCOLON", 336), ("MZN_PLUSPLUS", 337), ("MZN_EQUIV_QUOTED", 338),
    ("MZN_IMPL_QUOTED", 339), ("MZN_RIMPL_QUOTED", 340), ("MZN_OR_QUOTED", 341),
    ("MZN_XOR_QUOTED", 342), ("MZN_AND_QUOTED", 343), ("MZN_LE_QUOTED", 344),
    ("MZN_GR_QUOTED", 345), ("MZN_LQ_QUOTED", 346), ("MZN_GQ_QUOTED", 347),
    ("MZN_EQ_QUOTED", 348), ("MZN_NQ_QUOTED", 349), ("MZN_IN_QUOTED", 350),
    ("MZN_SUBSET_QUOTED", 351), ("MZN_SUPERSET_QUOTED", 352), ("MZN_UNION_QUOTED", 353),
    ("MZN_DIFF_QUOTED", 354), ("MZN_SYMDIFF_QUOTED", 355), ("MZN_DOTDOT_QUOTED", 356),
    ("MZN_PLUS_QUOTED", 357), ("MZN_MINUS_QUOTED", 358), ("MZN_MULT_QUOTED", 359),
    ("MZN_DIV_QUOTED", 360), ("MZN_IDIV_QUOTED", 361), ("MZN_MOD_QUOTED", 362),
    ("MZN_INTERSECT_QUOTED", 363), ("MZN_NOT_QUOTED", 364), ("MZN_COLONCOLON_QUOTED", 365),
    ("MZN_PLUSPLUS_QUOTED", 366)]

/-- The value of the enumerator of `yytokentype` with the given name. -/
def yytokentype.value (name : String) : Option Nat :=
  (yytokentype.find? fun t => t.1 == name).map Prod.snd

/-! ## Properties -/

/-- The tag a constructor call sets is the `eid` of its class. -/
theorem ExprCtor.build_eid (c : ExprCtor) : c.build.toExpression._eid = c.cls.eid := by
  cases c <;> rfl

/-- The tag a constructor call sets is the `iid` of its class. -/
theorem ItemCtor.build_iid (c : ItemCtor) : c.build.toItem._iid = c.cls.iid := by
  cases c <;> rfl

/-- Distinct expression classes have distinct tags. -/
theorem ExprClass.eid_injective : Function.Injective ExprClass.eid := by
  intro a b h
  cases a <;> cases b <;> first | rfl | cases h

/-- Distinct item classes have distinct tags. -/
theorem ItemClass.iid_injective : Function.Injective ItemClass.iid := by
  intro a b h
  cases a <;> cases b <;> first | rfl | cases h

/-- A call on an expression node leaves the tag of the node as it was, and a
view the call returns has that tag. -/
theorem ExprOp.call_eid (op : ExprOp) (n n1 : ExprNode) (r : OpResult ExprNode)
    (h : op.call n = some (r, n1)) :
    n1.toExpression._eid = n.toExpression._eid ∧
    ∀ v, r = OpResult.view (some v) → v.toExpression._eid = n.toExpression._eid := by
  cases op with
  | isa T =>
    simp only [ExprOp.call, Option.some.injEq, Prod.mk.injEq] at h
    obtain ⟨hr, hn⟩ := h
    subst hr hn
    exact ⟨rfl, fun v hv => by cases hv⟩
  | cast T =>
    by_cases hT : Expression.isa T n = true
    · simp [ExprOp.call, Expression.cast, assert, hT] at h
      obtain ⟨hr, hn⟩ := h
      subst hr hn
      exact ⟨rfl, fun v hv => by cases hv; rfl⟩
    · simp [ExprOp.call, Expression.cast, assert, hT] at h
  | dyn_cast T =>
    simp only [ExprOp.call, Option.some.injEq, Prod.mk.injEq] at h
    obtain ⟨hr, hn⟩ := h
    subst hr hn
    refine ⟨rfl, fun v hv => ?_⟩
    by_cases hT : Expression.isa T n = true
    · simp [Expression.dyn_cast, hT] at hv
      rw [hv]
    · simp [Expression.dyn_cast, hT] at hv
  | ispar =>
    cases n <;> simp [ExprOp.call] at h
    obtain ⟨hr, hn⟩ := h
    subst hr hn
    exact ⟨rfl, fun v hv => by cases hv⟩
  | isvar =>
    cases n <;> simp [ExprOp.call] at h
    obtain ⟨hr, hn⟩ := h
    subst hr hn
    exact ⟨rfl, fun v hv => by cases hv⟩
  | isset =>
    cases n <;> simp [ExprOp.call] at h
    obtain ⟨hr, hn⟩ := h
    subst hr hn
    exact ⟨rfl, fun v hv => by cases hv⟩
  | isarray =>
    cases n with
    | TiExpr o =>
      simp only [ExprOp.call] at h
      cases hq : o.isarray with
      | none => simp [hq] at h
      | some b =>
        simp only [hq, Option.map_some', Option.some.injEq, Prod.mk.injEq] at h
        obtain ⟨hr, hn⟩ := h
        subst hr hn
        exact ⟨rfl, fun v hv => by cases hv⟩
    | _ => simp [ExprOp.call] at h
  | isann =>
    cases n with
    | TiExpr o =>
      simp only [ExprOp.call] at h
      cases hq : o.isann with
      | none => simp [hq] at h
      | some b =>
        simp only [hq, Option.map_some', Option.some.injEq, Prod.mk.injEq] at h
        obtain ⟨hr, hn⟩ := h
        subst hr hn
        exact ⟨rfl, fun v hv => by cases hv⟩
    | _ => simp [ExprOp.call] at h

/-- Calls on an expression node, one after the other, leave its tag. -/
theorem ExprOp.callAll_eid (ops : List ExprOp) (n n1 : ExprNode)
    (h : ExprOp.callAll ops n = some n1) :
    n1.toExpression._eid = n.toExpression._eid := by
  induction ops generalizing n with
  | nil =>
    simp only [ExprOp.callAll, Option.some.injEq] at h
    rw [h]
  | cons op ops ih =>
    simp only [ExprOp.callAll] at h
    cases hc : op.call n with
    | none => simp [hc] at h
    | some p =>
      obtain ⟨r, n2⟩ := p
      simp only [hc] at h
      rw [ih n2 h]
      exact (ExprOp.call_eid op n n2 r hc).1

/-- `setModel` leaves the tag of the include item. -/
theorem IncludeI.setModel_iid (i i1 : MiniZinc.IncludeI) (m : Ptr) (own : Bool)
    (h : IncludeI.setModel i m own = Except.ok i1) : i1._iid = i._iid := by
  by_cases hm : i._m = NULL
  · simp [IncludeI.setModel, assert, hm] at h
    rw [← h]
  · simp [IncludeI.setModel, assert, hm] at h

/-- A call on an item node leaves the tag of the node as it was, and a view the
call returns has that tag. -/
theorem ItemOp.call_iid (op : ItemOp) (n n1 : ItemNode) (r : OpResult ItemNode)
    (h : op.call n = some (r, n1)) :
    n1.toItem._iid = n.toItem._iid ∧
    ∀ v, r = OpResult.view (some v) → v.toItem._iid = n.toItem._iid := by
  cases op with
  | isa T =>
    simp only [ItemOp.call, Option.some.injEq, Prod.mk.injEq] at h
    obtain ⟨hr, hn⟩ := h
    subst hr hn
    exact ⟨rfl, fun v hv => by cases hv⟩
  | cast T =>
    by_cases hT : Item.isa T n = true
    · simp [ItemOp.call, Item.cast, assert, hT] at h
      obtain ⟨hr, hn⟩ := h
      subst hr hn
      exact ⟨rfl, fun v hv => by cases hv; rfl⟩
    · simp [ItemOp.call, Item.cast, assert, hT] at h
  | dyn_cast T =>
    simp only [ItemOp.call, Option.some.injEq, Prod.mk.injEq] at h
    obtain ⟨hr, hn⟩ := h
    subst hr hn
    refine ⟨rfl, fun v hv => ?_⟩
    by_cases hT : Item.isa T n = true
    · simp [Item.dyn_cast, hT] at hv
      rw [hv]
    · simp [Item.dyn_cast, hT] at hv
  | setModel m own =>
    cases n with
    | IncludeI o =>
      simp only [ItemOp.call] at h
      cases hs : IncludeI.setModel o m own with
      | error e => simp [hs] at h
      | ok o1 =>
        simp only [hs, Option.some.injEq, Prod.mk.injEq] at h
        obtain ⟨hr, hn⟩ := h
        subst hr hn
        exact ⟨IncludeI.setModel_iid o o1 m own hs, fun v hv => by cases hv⟩
    | _ => simp [ItemOp.call] at h

/-- Calls on an item node, one after the other, leave its tag. -/
theorem ItemOp.callAll_iid (ops : List ItemOp) (n n1 : ItemNode)
    (h : ItemOp.callAll ops n = some n1) :
    n1.toItem._iid = n.toItem._iid := by
  induction ops generalizing n with
  | nil =>
    simp only [ItemOp.callAll, Option.some.injEq] at h
    rw [h]
  | cons op ops ih =>
    simp only [ItemOp.callAll] at h
    cases hc : op.call n with
    | none => simp [hc] at h
    | some p =>
      obtain ⟨r, n2⟩ := p
      simp only [hc] at h
      rw [ih n2 h]
      exact (ItemOp.call_iid op n n2 r hc).1

/-- C1: `isa<V>` on an expression node is true exactly when the node's `_eid`
equals `V::eid`, and `isa<V>` on an item node is true exactly when the node's
`_iid` equals `V::iid`. -/
theorem isa_iff_tag :
    (∀ (e : ExprNode) (V : ExprClass),
      Expression.isa V e = true ↔ e.toExpression._eid = V.eid) ∧
    (∀ (i : ItemNode) (V : ItemClass),
      Item.isa V i = true ↔ i.toItem._iid = V.iid) := by
  constructor
  · intro e V
    simp [Expression.isa]
  · intro i V
    simp [Item.isa]

/-- C2: `dyn_cast<V>` always returns: `NULL` when the node's tag differs from
the tag of `V`, and the node itself, which is also what `cast<V>` returns, when
the tags are equal; for expression nodes and for item nodes. -/
theorem dyn_cast_total :
    (∀ (n : ExprNode) (V : ExprClass),
      (n.toExpression._eid ≠ V.eid → Expression.dyn_cast V n = none) ∧
      (n.toExpression._eid = V.eid →
        Expression.dyn_cast V n = some n ∧ Expression.cast V n = Except.ok n) ∧
      (Expression.dyn_cast V n = none ∨ Expression.dyn_cast V n = some n)) ∧
    (∀ (n : ItemNode) (V : ItemClass),
      (n.toItem._iid ≠ V.iid → Item.dyn_cast V n = none) ∧
      (n.toItem._iid = V.iid →
        Item.dyn_cast V n = some n ∧ Item.cast V n = Except.ok n) ∧
      (Item.dyn_cast V n = none ∨ Item.dyn_cast V n = some n)) := by
  constructor
  · intro n V
    refine ⟨fun h => ?_, fun h => ?_, ?_⟩
    · simp [Expression.dyn_cast, Expression.isa, h]
    · simp [Expression.dyn_cast, Expression.cast, Expression.isa, assert, h]
    · by_cases h : Expression.isa V n = true <;> simp [Expression.dyn_cast, h]
  · intro n V
    refine ⟨fun h => ?_, fun h => ?_, ?_⟩
    · simp [Item.dyn_cast, Item.isa, h]
    · simp [Item.dyn_cast, Item.cast, Item.isa, assert, h]
    · by_cases h : Item.isa V n = true <;> simp [Item.dyn_cast, h]

/-- C3: with assertions enabled, `cast<V>` returns exactly when `isa<V>`
holds: if `isa<V>` is true the assertion passes and the result is the node
itself, and if `isa<V>` is false the call aborts on the assertion
`isa<T>()`; for expression nodes and for item nodes. -/
theorem cast_checked :
    (∀ (n : ExprNode) (V : ExprClass),
      (Expression.isa V n = true → Expression.cast V n = Except.ok n) ∧
      (Expression.isa V n = false → Expression.cast V n = Except.error "isa<T>()") ∧
      ((∃ v, Expression.cast V n = Except.ok v) ↔ Expression.isa V n = true)) ∧
    (∀ (n : ItemNode) (V : ItemClass),
      (Item.isa V n = true → Item.cast V n = Except.ok n) ∧
      (Item.isa V n = false → Item.cast V n = Except.error "isa<T>()") ∧
      ((∃ v, Item.cast V n = Except.ok v) ↔ Item.isa V n = true)) := by
  constructor
  · intro n V
    cases h : Expression.isa V n
    · refine ⟨by simp, fun _ => ?_, ?_⟩
      · simp [Expression.cast, assert, h]
      · simp [Expression.cast, assert, h]
    · refine ⟨fun _ => ?_, by simp, ?_⟩
      · simp [Expression.cast, assert, h]
      · simp [Expression.cast, assert, h]
  · intro n V
    cases h : Item.isa V n
    · refine ⟨by simp, fun _ => ?_, ?_⟩
      · simp [Item.cast, assert, h]
      · simp [Item.cast, assert, h]
    · refine ⟨fun _ => ?_, by simp, ?_⟩
      · simp [Item.cast, assert, h]
      · simp [Item.cast, assert, h]

/-- C4: a node built by the constructor of a class `V` satisfies `isa<V>` and
`dyn_cast<V>` returns it; for every other class `W` of the same family `isa<W>`
is false and `dyn_cast<W>` is `NULL`. For the expression classes and for the
item classes. -/
theorem tag_narrowing_round_trip :
    (∀ (c : ExprCtor),
      Expression.isa c.cls c.build = true ∧
      Expression.dyn_cast c.cls c.build = some c.build ∧
      ∀ W : ExprClass, W ≠ c.cls →
        Expression.isa W c.build = false ∧ Expression.dyn_cast W c.build = none) ∧
    (∀ (c : ItemCtor),
      Item.isa c.cls c.build = true ∧
      Item.dyn_cast c.cls c.build = some c.build ∧
      ∀ W : ItemClass, W ≠ c.cls →
        Item.isa W c.build = false ∧ Item.dyn_cast W c.build = none) := by
  constructor
  · intro c
    have hself : Expression.isa c.cls c.build = true := by
      simp [Expression.isa, ExprCtor.build_eid]
    have hother : ∀ W : ExprClass, W ≠ c.cls → Expression.isa W c.build = false := by
      intro W hW
      simp only [Expression.isa, ExprCtor.build_eid, beq_eq_false_iff_ne, ne_eq]
      exact fun h => hW (ExprClass.eid_injective h).symm
    refine ⟨hself, by simp [Expression.dyn_cast, hself], fun W hW => ?_⟩
    exact ⟨hother W hW, by simp [Expression.dyn_cast, hother W hW]⟩
  · intro c
    have hself : Item.isa c.cls c.build = true := by
      simp [Item.isa, ItemCtor.build_iid]
    have hother : ∀ W : ItemClass, W ≠ c.cls → Item.isa W c.build = false := by
      intro W hW
      simp only [Item.isa, ItemCtor.build_iid, beq_eq_false_iff_ne, ne_eq]
      exact fun h => hW (ItemClass.iid_injective h).symm
    refine ⟨hself, by simp [Item.dyn_cast, hself], fun W hW => ?_⟩
    exact ⟨hother W hW, by simp [Item.dyn_cast, hother W hW]⟩

/-- C5: for each class whose constructor takes member values, `dyn_cast` to that
class of the node the constructor builds returns a view of that class whose
members are the constructor arguments: the value of `IntLit`, `FloatLit`,
`BoolLit` and `StringLit`; the name and the declaration of `Id`; the left
operand, operator and right operand of `BinOp`; the operator and operand of
`UnOp`; the expression of an annotation; the ranges, variable type, set flag and
basic type of `TiExpr`. -/
theorem dyn_cast_view_fields :
    (∀ (loc : Location) (v : Int),
      ∃ o, Expression.dyn_cast ExprClass.IntLit (ExprCtor.build (ExprCtor.IntLit loc v))
          = some (ExprNode.IntLit o) ∧ o._v = v) ∧
    (∀ (loc : Location) (v : Double),
      ∃ o, Expression.dyn_cast ExprClass.FloatLit (ExprCtor.build (ExprCtor.FloatLit loc v))
          = some (ExprNode.FloatLit o) ∧ o._v = v) ∧
    (∀ (loc : Location) (v : Bool),
      ∃ o, Expression.dyn_cast ExprClass.BoolLit (ExprCtor.build (ExprCtor.BoolLit loc v))
          = some (ExprNode.BoolLit o) ∧ o._v = v) ∧
    (∀ (loc : Location) (v : CtxStringH),
      ∃ o, Expression.dyn_cast ExprClass.StringLit
            (ExprCtor.build (ExprCtor.StringLit loc v))
          = some (ExprNode.StringLit o) ∧ o._v = v) ∧
    (∀ (loc : Location) (v : CtxStringH) (decl : Ptr),
      ∃ o, Expression.dyn_cast ExprClass.Id (ExprCtor.build (ExprCtor.Id loc v decl))
          = some (ExprNode.Id o) ∧ o._v = v ∧ o._decl = decl) ∧
    (∀ (loc : Location) (e0 : Ptr) (op : BinOpType) (e1 : Ptr),
      ∃ o, Expression.dyn_cast ExprClass.BinOp (ExprCtor.build (ExprCtor.BinOp loc e0 op e1))
          = some (ExprNode.BinOp o) ∧ o._e0 = e0 ∧ o._op = op ∧ o._e1 = e1) ∧
    (∀ (loc : Location) (op : UnOpType) (e : Ptr),
      ∃ o, Expression.dyn_cast ExprClass.UnOp (ExprCtor.build (ExprCtor.UnOp loc op e))
          = some (ExprNode.UnOp o) ∧ o._op = op ∧ o._e0 = e) ∧
    (∀ (loc : Location) (e : Ptr),
      ∃ o, Expression.dyn_cast ExprClass.Annotation
            (ExprCtor.build (ExprCtor.Annotation loc e))
          = some (ExprNode.Annotation o) ∧ o._e = e) ∧
    (∀ (loc : Location) (ranges : CtxVecPtr Ptr) (vartype : VarType) (set : Bool)
        (ti : Option BaseTiExpr),
      ∃ o, Expression.dyn_cast ExprClass.TiExpr
            (ExprCtor.build (ExprCtor.TiExpr loc ranges vartype set ti))
          = some (ExprNode.TiExpr o) ∧
        o._ranges = ranges ∧ o._vartype = vartype ∧ o._set = set ∧ o._ti = ti) := by
  refine ⟨?_, ?_, ?_, ?_, ?_, ?_, ?_, ?_, ?_⟩
  · intro loc v
    exact ⟨IntLit.IntLit loc v, rfl, rfl⟩
  · intro loc v
    exact ⟨FloatLit.FloatLit loc v, rfl, rfl⟩
  · intro loc v
    exact ⟨BoolLit.BoolLit loc v, rfl, rfl⟩
  · intro loc v
    exact ⟨StringLit.StringLit loc v, rfl, rfl⟩
  · intro loc v decl
    exact ⟨Id.Id loc v decl, rfl, rfl, rfl⟩
  · intro loc e0 op e1
    exact ⟨BinOp.BinOp loc e0 op e1, rfl, rfl, rfl, rfl⟩
  · intro loc op e
    exact ⟨UnOp.UnOp loc op e, rfl, rfl, rfl⟩
  · intro loc e
    exact ⟨ Annotation.Annotation loc e, rfl, rfl⟩
  · intro loc ranges vartype set ti
    exact ⟨TiExpr.TiExpr loc ranges vartype set ti, rfl, rfl, rfl, rfl, rfl⟩

/-- C7: on an include item whose `_m` is `NULL`, `setModel(m, own)` returns;
afterwards `_m` is `m` and `_own` is `own`, and the file name, the location and
the tag are those before the call. With the second argument omitted `_own` is
`true`. -/
theorem setModel_on_empty (i : MiniZinc.IncludeI) (m : Ptr) (own : Bool)
    (h : i._m = NULL) :
    (∃ i1, IncludeI.setModel i m own = Except.ok i1 ∧
      i1._m = m ∧ i1._own = own ∧
      i1._f = i._f ∧ i1._loc = i._loc ∧ i1._iid = i._iid) ∧
    (∃ i1, IncludeI.setModel i m = Except.ok i1 ∧
      i1._m = m ∧ i1._own = true ∧
      i1._f = i._f ∧ i1._loc = i._loc ∧ i1._iid = i._iid) := by
  constructor
  · exact ⟨{ i with _m := m, _own := own }, by simp [IncludeI.setModel, assert, h],
      rfl, rfl, rfl, rfl, rfl⟩
  · exact ⟨{ i with _m := m, _own := true }, by simp [IncludeI.setModel, assert, h],
      rfl, rfl, rfl, rfl, rfl⟩

/-- On `sampleInclude`, whose `_m` is `NULL`, `setModel(4096, false)` and
`setModel(4096)` return with the members as stated. -/
theorem setModel_on_empty_witness :
    sampleInclude._m = NULL ∧
    (∃ i1, IncludeI.setModel sampleInclude (some 4096) false = Except.ok i1 ∧
      i1._m = some 4096 ∧ i1._own = false ∧
      i1._f = sampleInclude._f ∧ i1._loc = sampleInclude._loc ∧
      i1._iid = sampleInclude._iid) ∧
    (∃ i1, IncludeI.setModel sampleInclude (some 4096) = Except.ok i1 ∧
      i1._m = some 4096 ∧ i1._own = true ∧
      i1._f = sampleInclude._f ∧ i1._loc = sampleInclude._loc ∧
      i1._iid = sampleInclude._iid) :=
  ⟨rfl, setModel_on_empty sampleInclude (some 4096) false rfl⟩

/-- C8: the tag of a node is the one its constructor set, whatever member
functions are called on it afterwards. A constructor sets the tag of its class;
every call of `isa`, `cast`, `dyn_cast`, `ispar`, `isvar`, `isset`, `isarray`,
`isann` on an expression node and of `isa`, `cast`, `dyn_cast`, `setModel` on an
item node that returns leaves the tag, and a view it returns carries it; hence
after any sequence of such calls on a node built by a constructor the tag is
the tag of the class of that constructor. -/
theorem tag_set_once :
    (∀ (c : ExprCtor) (ops : List ExprOp) (n : ExprNode),
      ExprOp.callAll ops c.build = some n → n.toExpression._eid = c.cls.eid) ∧
    (∀ (c : ItemCtor) (ops : List ItemOp) (n : ItemNode),
      ItemOp.callAll ops c.build = some n → n.toItem._iid = c.cls.iid) ∧
    (∀ (op : ExprOp) (n n1 : ExprNode) (r : OpResult ExprNode),
      op.call n = some (r, n1) →
        n1.toExpression._eid = n.toExpression._eid ∧
        ∀ v, r = OpResult.view (some v) → v.toExpression._eid = n.toExpression._eid) ∧
    (∀ (op : ItemOp) (n n1 : ItemNode) (r : OpResult ItemNode),
      op.call n = some (r, n1) →
        n1.toItem._iid = n.toItem._iid ∧
        ∀ v, r = OpResult.view (some v) → v.toItem._iid = n.toItem._iid) := by
  refine ⟨fun c ops n h => ?_, fun c ops n h => ?_, ExprOp.call_eid, ItemOp.call_iid⟩
  · rw [ExprOp.callAll_eid ops c.build n h, ExprCtor.build_eid]
  · rw [ItemOp.callAll_iid ops c.build n h, ItemCtor.build_iid]

/-- On the include item built over the storage of `sampleInclude`, the calls
`isa<IncludeI>`, `cast<IncludeI>`, `setModel(4096, true)`, `dyn_cast<VarDeclI>`
all return and leave the tag `II_INC`; on a type-inst built by its constructor
the calls `isa<TiExpr>`, `ispar`, `isarray`, `isann`, `cast<TiExpr>` all return
and leave the tag `E_TI`. -/
theorem tag_set_once_witness :
    (ItemOp.callAll
        [ItemOp.isa ItemClass.IncludeI, ItemOp.cast ItemClass.IncludeI,
          ItemOp.setModel (some 4096) true, ItemOp.dyn_cast ItemClass.VarDeclI]
        (ItemCtor.build (ItemCtor.IncludeI sampleInclude sampleLocation))
      = some (ItemNode.IncludeI { sampleInclude with _m := some 4096, _own := true }) ∧
      (ItemNode.IncludeI { sampleInclude with _m := some 4096, _own := true }).toItem._iid
        = ItemClass.iid ItemClass.IncludeI) ∧
    (ExprOp.callAll
        [ExprOp.isa ExprClass.TiExpr, ExprOp.ispar, ExprOp.isarray, ExprOp.isann,
          ExprOp.cast ExprClass.TiExpr]
        (ExprCtor.build (ExprCtor.TiExpr sampleLocation (some [some 128]) VarType.VT_PAR
          false (some ⟨TiExprId.TI_INT⟩)))
      = some (ExprCtor.build (ExprCtor.TiExpr sampleLocation (some [some 128]) VarType.VT_PAR
          false (some ⟨TiExprId.TI_INT⟩))) ∧
      (ExprCtor.build (ExprCtor.TiExpr sampleLocation (some [some 128]) VarType.VT_PAR
          false (some ⟨TiExprId.TI_INT⟩))).toExpression._eid = ExprClass.eid ExprClass.TiExpr) :=
  ⟨⟨rfl, tag_set_once.2.1 (ItemCtor.IncludeI sampleInclude sampleLocation)
      [ItemOp.isa ItemClass.IncludeI, ItemOp.cast ItemClass.IncludeI,
        ItemOp.setModel (some 4096) true, ItemOp.dyn_cast ItemClass.VarDeclI]
      (ItemNode.IncludeI { sampleInclude with _m := some 4096, _own := true }) rfl⟩,
    ⟨rfl, tag_set_once.1
      (ExprCtor.TiExpr sampleLocation (some [some 128]) VarType.VT_PAR false
        (some ⟨TiExprId.TI_INT⟩))
      [ExprOp.isa ExprClass.TiExpr, ExprOp.ispar, ExprOp.isarray, ExprOp.isann,
        ExprOp.cast ExprClass.TiExpr]
      (ExprCtor.build (ExprCtor.TiExpr sampleLocation (some [some 128]) VarType.VT_PAR
        false (some ⟨TiExprId.TI_INT⟩))) rfl⟩⟩

/-- C9 as stated fails: the enumeration `ExpressionId` does not have 17
values. -/
theorem expressionId_card_ne_17 : Fintype.card ExpressionId ≠ 17 := by
  decide

/-- C9 (amended): the set of expression tags is closed and has exactly 18
values, the enumerators of `ExpressionId`; there are 18 concrete expression
classes, and every tag is the `eid` of exactly one of them. -/
theorem expressionId_card :
    Fintype.card ExpressionId = 18 ∧
    (∀ t : ExpressionId, t ∈
      [ExpressionId.E_INTLIT, ExpressionId.E_FLOATLIT, ExpressionId.E_SETLIT,
        ExpressionId.E_BOOLLIT, ExpressionId.E_STRINGLIT, ExpressionId.E_ID,
        ExpressionId.E_ANON, ExpressionId.E_ARRAYLIT, ExpressionId.E_ARRAYACCESS,
        ExpressionId.E_COMP, ExpressionId.E_ITE, ExpressionId.E_BINOP,
        ExpressionId.E_UNOP, ExpressionId.E_CALL, ExpressionId.E_VARDECL,
        ExpressionId.E_LET, ExpressionId.E_ANN, ExpressionId.E_TI]) ∧
    Fintype.card ExprClass = 18 ∧
    (∀ t : ExpressionId, ∃! V : ExprClass, V.eid = t) := by
  refine ⟨rfl, fun t => by cases t <;> simp, rfl, ?_⟩
  have hbij : Function.Bijective ExprClass.eid :=
    (Fintype.bijective_iff_injective_and_card _).2 ⟨ExprClass.eid_injective, rfl⟩
  exact fun t => hbij.existsUnique t

/-- C10: the set of item tags is closed and has exactly 8 values, the
enumerators of `ItemId`; each is the `iid` of exactly one item class:
`II_INC` of `IncludeI`, `II_VD` of `VarDeclI`, `II_ASN` of `AssignI`, `II_CON` of
`ConstraintI`, `II_SOL` of `SolveI`, `II_OUT` of `OutputI`, `II_PRED` of
`PredicateI` and `II_FUN` of `FunctionI`. -/
theorem itemId_card :
    Fintype.card ItemId = 8 ∧
    (∀ t : ItemId, t ∈
      [ItemId.II_INC, ItemId.II_VD, ItemId.II_ASN, ItemId.II_CON, ItemId.II_SOL,
        ItemId.II_OUT, ItemId.II_PRED, ItemId.II_FUN]) ∧
    Fintype.card ItemClass = 8 ∧
    (∀ t : ItemId, ∃! V : ItemClass, V.iid = t) ∧
    ItemClass.iid ItemClass.IncludeI = ItemId.II_INC ∧
    ItemClass.iid ItemClass.VarDeclI = ItemId.II_VD ∧
    ItemClass.iid ItemClass.AssignI = ItemId.II_ASN ∧
    ItemClass.iid ItemClass.ConstraintI = ItemId.II_CON ∧
    ItemClass.iid ItemClass.SolveI = ItemId.II_SOL ∧
    ItemClass.iid ItemClass.OutputI = ItemId.II_OUT ∧
    ItemClass.iid ItemClass.PredicateI = ItemId.II_PRED ∧
    ItemClass.iid ItemClass.FunctionI = ItemId.II_FUN := by
  refine ⟨rfl, fun t => by cases t <;> simp, rfl, ?_, rfl, rfl, rfl, rfl, rfl, rfl, rfl, rfl⟩
  have hbij : Function.Bijective ItemClass.iid :=
    (Fintype.bijective_iff_injective_and_card _).2 ⟨ItemClass.iid_injective, rfl⟩
  exact fun t => hbij.existsUnique t

/-- C11: for a `TiExpr` built by its constructor from a present range sequence
`ranges`, a variable type, a set flag and a basic type, `ispar()` is true
exactly when the variable type is `VT_PAR`, `isvar()` exactly when it is
`VT_VAR`, `isset()` is the set flag, and `isarray()` returns, with the value true
exactly when `ranges` is not empty. -/
theorem tiexpr_queries (loc : Location) (ranges : List Ptr) (vartype : VarType)
    (set : Bool) (ti : Option BaseTiExpr) :
    ((TiExpr.TiExpr loc (some ranges) vartype set ti).ispar = true
      ↔ vartype = VarType.VT_PAR) ∧
    ((TiExpr.TiExpr loc (some ranges) vartype set ti).isvar = true
      ↔ vartype = VarType.VT_VAR) ∧
    (TiExpr.TiExpr loc (some ranges) vartype set ti).isset = set ∧
    ∃ b, (TiExpr.TiExpr loc (some ranges) vartype set ti).isarray = some b ∧
      (b = true ↔ ranges ≠ []) := by
  refine ⟨?_, ?_, rfl, ?_⟩
  · simp [TiExpr.ispar, TiExpr.TiExpr]
  · simp [TiExpr.isvar, TiExpr.TiExpr]
  · refine ⟨!ranges.isEmpty, rfl, ?_⟩
    cases ranges <;> simp

/-- C12: for a `TiExpr` whose range sequence and basic type are present,
`isann()` returns, and its value is true exactly when the variable type is
`VT_PAR`, the range sequence is empty, the set flag is false and the tag of the
basic type is `TI_ANN`. -/
theorem isann_iff (t : MiniZinc.TiExpr) (ranges : List Ptr) (ti : BaseTiExpr)
    (hr : t._ranges = some ranges) (hti : t._ti = some ti) :
    ∃ b, t.isann = some b ∧
      (b = true ↔
        t._vartype = VarType.VT_PAR ∧ ranges = [] ∧ t._set = false ∧
          ti._tiid = TiExprId.TI_ANN) := by
  by_cases hp : t._vartype = VarType.VT_PAR
  · cases ranges with
    | nil =>
      cases hs : t._set
      · exact ⟨ti._tiid == TiExprId.TI_ANN,
          by simp [TiExpr.isann, TiExpr.ispar, TiExpr.isarray, TiExpr.isset, hp, hr, hs, hti],
          by simp [hp]⟩
      · exact ⟨false,
          by simp [TiExpr.isann, TiExpr.ispar, TiExpr.isarray, TiExpr.isset, hp, hr, hs],
          by simp⟩
    | cons r rs =>
      exact ⟨false, by simp [TiExpr.isann, TiExpr.ispar, TiExpr.isarray, hp, hr], by simp⟩
  · exact ⟨false, by simp [TiExpr.isann, TiExpr.ispar, hp], by simp [hp]⟩

/-- On the parameter type-inst with no ranges, no set flag and the basic type
tagged `TI_ANN`, `isann()` returns true; the range sequence and the basic type
are present. -/
theorem isann_iff_witness :
    (TiExpr.TiExpr sampleLocation (some []) VarType.VT_PAR false (some ⟨TiExprId.TI_ANN⟩))._ranges
      = some [] ∧
    (TiExpr.TiExpr sampleLocation (some []) VarType.VT_PAR false (some ⟨TiExprId.TI_ANN⟩))._ti
      = some ⟨TiExprId.TI_ANN⟩ ∧
    (TiExpr.TiExpr sampleLocation (some []) VarType.VT_PAR false
      (some ⟨TiExprId.TI_ANN⟩)).isann = some true ∧
    ∃ b, (TiExpr.TiExpr sampleLocation (some []) VarType.VT_PAR false
        (some ⟨TiExprId.TI_ANN⟩)).isann = some b ∧
      (b = true ↔
        (TiExpr.TiExpr sampleLocation (some []) VarType.VT_PAR false
          (some ⟨TiExprId.TI_ANN⟩))._vartype = VarType.VT_PAR ∧
        ([] : List Ptr) = [] ∧
        (TiExpr.TiExpr sampleLocation (some []) VarType.VT_PAR false
          (some ⟨TiExprId.TI_ANN⟩))._set = false ∧
        (⟨TiExprId.TI_ANN⟩ : BaseTiExpr)._tiid = TiExprId.TI_ANN) :=
  ⟨rfl, rfl, rfl,
    isann_iff (TiExpr.TiExpr sampleLocation (some []) VarType.VT_PAR false
      (some ⟨TiExprId.TI_ANN⟩)) [] ⟨TiExprId.TI_ANN⟩ rfl rfl⟩

/-- C15: `addRanges(t, qs)` on a type-inst with range sequence `rs` returns and
leaves the range sequence `rs ++ qs` and the other members as they were; a var
type-inst built without ranges and extended with `[r1]`, then with `[r2]`, has
the ranges `[r1, r2]`, answers `isarray()` with true, and is the type-inst the
factories build directly from the two ranges. -/
theorem addRanges_appends :
    (∀ (t : MiniZinc.TiExpr) (rs qs : List Ptr),
      TiExpr.addRanges { t with _ranges := some rs } qs
        = some { t with _ranges := some (rs ++ qs) }) ∧
    (∀ (loc : Location) (ti : Option BaseTiExpr) (r1 r2 : Ptr),
      ∃ t, ((TiExpr.var0 loc ti).addRanges [r1]).bind (fun t1 => t1.addRanges [r2]) = some t ∧
        t._ranges = some [r1, r2] ∧
        t.isarray = some true ∧
        t = TiExpr.var2 loc r1 r2 ti ∧
        t = TiExpr.var loc [r1, r2] ti) := by
  constructor
  · intro t rs qs
    rfl
  · intro loc ti r1 r2
    exact ⟨TiExpr.var2 loc r1 r2 ti, rfl, rfl, rfl, rfl, rfl⟩

/-- C16: in each of the families `par`, `var`, `varset`, `parset` the factory
with a sequence of ranges builds a type-inst whose members are the canonical
representation: the range sequence is the given one, the variable type is
`VT_PAR` for `par` and `parset` and `VT_VAR` for `var` and `varset`, the set flag
is true exactly for `varset` and `parset`, the basic type and the location are
the given ones and the tag is `E_TI`. The factories with no, one and two ranges
build the type-inst that the factory with a sequence builds from `[]`, `[r0]`
and `[r0, r1]`, with these range sequences and the variable type and set flag
of the family. -/
theorem factory_matrix (loc : Location) (ti : Option BaseTiExpr) (r0 r1 : Ptr)
    (ranges : List Ptr) :
    (((TiExpr.var loc ranges ti)._ranges = some ranges ∧
        (TiExpr.var loc ranges ti)._vartype = VarType.VT_VAR ∧
        (TiExpr.var loc ranges ti)._set = false ∧
        (TiExpr.var loc ranges ti)._ti = ti ∧
        (TiExpr.var loc ranges ti)._loc = loc ∧
        (TiExpr.var loc ranges ti)._eid = ExpressionId.E_TI) ∧
      (TiExpr.var0 loc ti = TiExpr.var loc [] ti ∧
        TiExpr.var1 loc r0 ti = TiExpr.var loc [r0] ti ∧
        TiExpr.var2 loc r0 r1 ti = TiExpr.var loc [r0, r1] ti) ∧
      ((TiExpr.var0 loc ti)._ranges = some [] ∧
        (TiExpr.var0 loc ti)._vartype = VarType.VT_VAR ∧
        (TiExpr.var0 loc ti)._set = false ∧
        (TiExpr.var0 loc ti)._ti = ti) ∧
      ((TiExpr.var1 loc r0 ti)._ranges = some [r0] ∧
        (TiExpr.var1 loc r0 ti)._vartype = VarType.VT_VAR ∧
        (TiExpr.var1 loc r0 ti)._set = false ∧
        (TiExpr.var1 loc r0 ti)._ti = ti) ∧
      ((TiExpr.var2 loc r0 r1 ti)._ranges = some [r0, r1] ∧
        (TiExpr.var2 loc r0 r1 ti)._vartype = VarType.VT_VAR ∧
        (TiExpr.var2 loc r0 r1 ti)._set = false ∧
        (TiExpr.var2 loc r0 r1 ti)._ti = ti)) ∧
    (((TiExpr.par loc ranges ti)._ranges = some ranges ∧
        (TiExpr.par loc ranges ti)._vartype = VarType.VT_PAR ∧
        (TiExpr.par loc ranges ti)._set = false ∧
        (TiExpr.par loc ranges ti)._ti = ti ∧
        (TiExpr.par loc ranges ti)._loc = loc ∧
        (TiExpr.par loc ranges ti)._eid = ExpressionId.E_TI) ∧
      (TiExpr.par0 loc ti = TiExpr.par loc [] ti ∧
        TiExpr.par1 loc r0 ti = TiExpr.par loc [r0] ti ∧
        TiExpr.par2 loc r0 r1 ti = TiExpr.par loc [r0, r1] ti) ∧
      ((TiExpr.par0 loc ti)._ranges = some [] ∧
        (TiExpr.par0 loc ti)._vartype = VarType.VT_PAR ∧
        (TiExpr.par0 loc ti)._set = false ∧
        (TiExpr.par0 loc ti)._ti = ti) ∧
      ((TiExpr.par1 loc r0 ti)._ranges = some [r0] ∧
        (TiExpr.par1 loc r0 ti)._vartype = VarType.VT_PAR ∧
        (TiExpr.par1 loc r0 ti)._set = false ∧
        (TiExpr.par1 loc r0 ti)._ti = ti) ∧
      ((TiExpr.par2 loc r0 r1 ti)._ranges = some [r0, r1] ∧
        (TiExpr.par2 loc r0 r1 ti)._vartype = VarType.VT_PAR ∧
        (TiExpr.par2 loc r0 r1 ti)._set = false ∧
        (TiExpr.par2 loc r0 r1 ti)._ti = ti)) ∧
    (((TiExpr.varset loc ranges ti)._ranges = some ranges ∧
        (TiExpr.varset loc ranges ti)._vartype = VarType.VT_VAR ∧
        (TiExpr.varset loc ranges ti)._set = true ∧
        (TiExpr.varset loc ranges ti)._ti = ti ∧
        (TiExpr.varset loc ranges ti)._loc = loc ∧
        (TiExpr.varset loc ranges ti)._eid = ExpressionId.E_TI) ∧
      (TiExpr.varset0 loc ti = TiExpr.varset loc [] ti ∧
        TiExpr.varset1 loc r0 ti = TiExpr.varset loc [r0] ti ∧
        TiExpr.varset2 loc r0 r1 ti = TiExpr.varset loc [r0, r1] ti) ∧
      ((TiExpr.varset0 loc ti)._ranges = some [] ∧
        (TiExpr.varset0 loc ti)._vartype = VarType.VT_VAR ∧
        (TiExpr.varset0 loc ti)._set = true ∧
        (TiExpr.varset0 loc ti)._ti = ti) ∧
      ((TiExpr.varset1 loc r0 ti)._ranges = some [r0] ∧
        (TiExpr.varset1 loc r0 ti)._vartype = VarType.VT_VAR ∧
        (TiExpr.varset1 loc r0 ti)._set = true ∧
        (TiExpr.varset1 loc r0 ti)._ti = ti) ∧
      ((TiExpr.varset2 loc r0 r1 ti)._ranges = some [r0, r1] ∧
        (TiExpr.varset2 loc r0 r1 ti)._vartype = VarType.VT_VAR ∧
        (TiExpr.varset2 loc r0 r1 ti)._set = true ∧
        (TiExpr.varset2 loc r0 r1 ti)._ti = ti)) ∧
    (((TiExpr.parset loc ranges ti)._ranges = some ranges ∧
        (TiExpr.parset loc ranges ti)._vartype = VarType.VT_PAR ∧
        (TiExpr.parset loc ranges ti)._set = true ∧
        (TiExpr.parset loc ranges ti)._ti = ti ∧
        (TiExpr.parset loc ranges ti)._loc = loc ∧
        (TiExpr.parset loc ranges ti)._eid = ExpressionId.E_TI) ∧
      (TiExpr.parset0 loc ti = TiExpr.parset loc [] ti ∧
        TiExpr.parset1 loc r0 ti = TiExpr.parset loc [r0] ti ∧
        TiExpr.parset2 loc r0 r1 ti = TiExpr.parset loc [r0, r1] ti) ∧
      ((TiExpr.parset0 loc ti)._ranges = some [] ∧
        (TiExpr.parset0 loc ti)._vartype = VarType.VT_PAR ∧
        (TiExpr.parset0 loc ti)._set = true ∧
        (TiExpr.parset0 loc ti)._ti = ti) ∧
      ((TiExpr.parset1 loc r0 ti)._ranges = some [r0] ∧
        (TiExpr.parset1 loc r0 ti)._vartype = VarType.VT_PAR ∧
        (TiExpr.parset1 loc r0 ti)._set = true ∧
        (TiExpr.parset1 loc r0 ti)._ti = ti) ∧
      ((TiExpr.parset2 loc r0 r1 ti)._ranges = some [r0, r1] ∧
        (TiExpr.parset2 loc r0 r1 ti)._vartype = VarType.VT_PAR ∧
        (TiExpr.parset2 loc r0 r1 ti)._set = true ∧
        (TiExpr.parset2 loc r0 r1 ti)._ti = ti)) ∧
    (TiExpr.var loc ranges ti = TiExpr.TiExpr loc (some ranges) VarType.VT_VAR false ti ∧
      TiExpr.par loc ranges ti = TiExpr.TiExpr loc (some ranges) VarType.VT_PAR false ti ∧
      TiExpr.varset loc ranges ti = TiExpr.TiExpr loc (some ranges) VarType.VT_VAR true ti ∧
      TiExpr.parset loc ranges ti = TiExpr.TiExpr loc (some ranges) VarType.VT_PAR true ti) := by
  exact ⟨⟨⟨rfl, rfl, rfl, rfl, rfl, rfl⟩, ⟨rfl, rfl, rfl⟩, ⟨rfl, rfl, rfl, rfl⟩, ⟨rfl, rfl, rfl, rfl⟩, ⟨rfl, rfl, rfl, rfl⟩⟩,
    ⟨⟨rfl, rfl, rfl, rfl, rfl, rfl⟩, ⟨rfl, rfl, rfl⟩, ⟨rfl, rfl, rfl, rfl⟩, ⟨rfl, rfl, rfl, rfl⟩, ⟨rfl, rfl, rfl, rfl⟩⟩,
    ⟨⟨rfl, rfl, rfl, rfl, rfl, rfl⟩, ⟨rfl, rfl, rfl⟩, ⟨rfl, rfl, rfl, rfl⟩, ⟨rfl, rfl, rfl, rfl⟩, ⟨rfl, rfl, rfl, rfl⟩⟩,
    ⟨⟨rfl, rfl, rfl, rfl, rfl, rfl⟩, ⟨rfl, rfl, rfl⟩, ⟨rfl, rfl, rfl, rfl⟩, ⟨rfl, rfl, rfl, rfl⟩, ⟨rfl, rfl, rfl, rfl⟩⟩,
    rfl, rfl, rfl, rfl⟩

/-- C19, on the code: `EVisitor` declares 16 member functions, one for each
expression class other than the annotation class and `TiExpr`; no member takes
an annotation or a `TiExpr`, so the tags `E_ANN` and `E_TI` have no callback and
it is not the case that every tag of `ExpressionId` has one. -/
theorem evisitor_callbacks :
    Fintype.card EVisitorMethod = 16 ∧
    (∀ m : EVisitorMethod,
      m.param.eid ≠ ExpressionId.E_ANN ∧ m.param.eid ≠ ExpressionId.E_TI) ∧
    (∀ t : ExpressionId, t ≠ ExpressionId.E_ANN → t ≠ ExpressionId.E_TI →
      ∃! m : EVisitorMethod, m.param.eid = t) ∧
    ¬ ∀ t : ExpressionId, ∃ m : EVisitorMethod, m.param.eid = t := by
  have hinj : ∀ m1 m2 : EVisitorMethod, m1.param.eid = m2.param.eid → m1 = m2 := by
    decide
  have hex : ∀ t : ExpressionId, t ≠ ExpressionId.E_ANN → t ≠ ExpressionId.E_TI →
      ∃ m : EVisitorMethod, m.param.eid = t := by
    decide
  have hnone : ∀ m : EVisitorMethod,
      m.param.eid ≠ ExpressionId.E_ANN ∧ m.param.eid ≠ ExpressionId.E_TI := by
    decide
  refine ⟨rfl, hnone, fun t h1 h2 => ?_, fun h => ?_⟩
  · obtain ⟨m, hm⟩ := hex t h1 h2
    exact ⟨m, hm, fun m1 hm1 => hinj m1 m (hm1.trans hm.symm)⟩
  · obtain ⟨m, hm⟩ := h ExpressionId.E_ANN
    exact (hnone m).1 hm

/-- C20: every member function of `EVisitor` returns and leaves the visitor and
the node it is passed as they were. -/
theorem evisitor_noop (v : EVisitor) :
    (∀ n, v.vIntLit n = (v, n)) ∧
    (∀ n, v.vFloatLit n = (v, n)) ∧
    (∀ n, v.vBoolLit n = (v, n)) ∧
    (∀ n, v.vSetLit n = (v, n)) ∧
    (∀ n, v.vStringLit n = (v, n)) ∧
    (∀ n, v.vId n = (v, n)) ∧
    (∀ n, v.vAnon n = (v, n)) ∧
    (∀ n, v.vArrayLit n = (v, n)) ∧
    (∀ n, v.vArrayAccess n = (v, n)) ∧
    (∀ n, v.vComprehension n = (v, n)) ∧
    (∀ n, v.vITE n = (v, n)) ∧
    (∀ n, v.vBinOp n = (v, n)) ∧
    (∀ n, v.vUnOp n = (v, n)) ∧
    (∀ n, v.vCall n = (v, n)) ∧
    (∀ n, v.vLet n = (v, n)) ∧
    (∀ n, v.vVarDecl n = (v, n)) := by
  refine ⟨?_, ?_, ?_, ?_, ?_, ?_, ?_, ?_, ?_, ?_, ?_, ?_, ?_, ?_, ?_, ?_⟩ <;> intro n <;> rfl

/-- The handle `internString` returns is the position of the first
occurrence of the string in the table, before and after the call. -/
theorem ASTContext.internString_handle (ctx : ASTContext) (s : String) :
    (ctx.internString s).1.handle = ctx.strings.indexOf s ∧
    (ctx.internString s).1.handle = (ctx.internString s).2.strings.indexOf s ∧
    s ∈ (ctx.internString s).2.strings := by
  by_cases h : s ∈ ctx.strings
  · simp [ASTContext.internString, h]
  · simp [ASTContext.internString, h, List.indexOf_of_not_mem h,
      List.indexOf_append_of_not_mem h]

/-- The table `internString` leaves begins with the table before the call. -/
theorem ASTContext.internString_prefix (ctx : ASTContext) (s : String) :
    ctx.strings <+: (ctx.internString s).2.strings := by
  by_cases h : s ∈ ctx.strings
  · simp [ASTContext.internString, h]
  · simp [ASTContext.internString, h]

/-- The table after a sequence of internings begins with the table before. -/
theorem ASTContext.internAll_prefix (ss : List String) (ctx : ASTContext) :
    ctx.strings <+: (ctx.internAll ss).strings := by
  induction ss generalizing ctx with
  | nil => exact List.prefix_refl _
  | cons s ss ih =>
    exact (ASTContext.internString_prefix ctx s).trans (ih (ctx.internString s).2)

/-- C18: two strings interned in the same context, with any internings between
them, get equal handles exactly when their contents are equal; hence `Id`,
`StringLit` and `Call` nodes the factories build one after the other from the
names `s1` and `s2` carry equal name handles exactly when `s1 = s2`. -/
theorem interning_identity :
    (∀ (ctx : ASTContext) (s1 s2 : String) (between : List String),
      (((ctx.internString s1).2.internAll between).internString s2).1
          = (ctx.internString s1).1 ↔ s1 = s2) ∧
    (∀ (ctx : ASTContext) (s1 s2 : String) (l1 l2 : Location) (d1 d2 : Ptr),
      (Id.a (Id.a ctx l1 s1 d1).2 l2 s2 d2).1._v = (Id.a ctx l1 s1 d1).1._v ↔ s1 = s2) ∧
    (∀ (ctx : ASTContext) (s1 s2 : String) (l1 l2 : Location),
      (StringLit.a (StringLit.a ctx l1 s1).2 l2 s2).1._v = (StringLit.a ctx l1 s1).1._v
        ↔ s1 = s2) ∧
    (∀ (ctx : ASTContext) (s1 s2 : String) (l1 l2 : Location) (a1 a2 : List Ptr)
        (raw1 raw2 : MiniZinc.Call),
      (Call.a raw2 (Call.a raw1 ctx l1 s1 a1).2 l2 s2 a2).1._id
          = (Call.a raw1 ctx l1 s1 a1).1._id ↔ s1 = s2) := by
  have key : ∀ (ctx : ASTContext) (s1 s2 : String) (between : List String),
      (((ctx.internString s1).2.internAll between).internString s2).1
          = (ctx.internString s1).1 ↔ s1 = s2 := by
    intro ctx s1 s2 between
    obtain ⟨-, h1, hmem1⟩ := ASTContext.internString_handle ctx s1
    obtain ⟨h2, -, -⟩ :=
      ASTContext.internString_handle ((ctx.internString s1).2.internAll between) s2
    obtain ⟨t, ht⟩ := ASTContext.internAll_prefix between (ctx.internString s1).2
    have hmem : s1 ∈ ((ctx.internString s1).2.internAll between).strings := by
      rw [← ht]
      exact List.mem_append_left t hmem1
    have h1b : (ctx.internString s1).1.handle
        = ((ctx.internString s1).2.internAll between).strings.indexOf s1 := by
      rw [h1, ← ht, List.indexOf_append_of_mem hmem1]
    constructor
    · intro h
      have hh : ((ctx.internString s1).2.internAll between).strings.indexOf s2
          = ((ctx.internString s1).2.internAll between).strings.indexOf s1 := by
        rw [← h2, ← h1b, h]
      have hmem2 : s2 ∈ ((ctx.internString s1).2.internAll between).strings := by
        rw [← List.indexOf_lt_length, hh, List.indexOf_lt_length]
        exact hmem
      exact ((List.indexOf_inj hmem2 hmem).1 hh).symm
    · intro h
      subst h
      have hh : (((ctx.internString s1).2.internAll between).internString s1).1.handle
          = (ctx.internString s1).1.handle := by
        rw [h2, h1b]
      cases hx : (((ctx.internString s1).2.internAll between).internString s1).1
      cases hy : (ctx.internString s1).1
      simp only [hx, hy] at hh
      simp [hh]
  refine ⟨key, ?_, ?_, ?_⟩
  · intro ctx s1 s2 l1 l2 d1 d2
    exact key ctx s1 s2 []
  · intro ctx s1 s2 l1 l2
    exact key ctx s1 s2 []
  · intro ctx s1 s2 l1 l2 a1 a2 raw1 raw2
    exact key ctx s1 s2 []

/-- A write of `_ann` is read back. -/
theorem ExprNode.setAnn_ann (n : ExprNode) (p : Ptr) :
    (n.setAnn p).toExpression._ann = p := by
  cases n <;> rfl

/-- A constructor leaves the node without annotations. -/
theorem ExprCtor.build_ann (c : ExprCtor) : c.build.toExpression._ann = NULL := by
  cases c <;> rfl

/-- A chain read within a bound is read within every larger bound. -/
theorem annChain_mono (h : ExprHeap) (f : Nat) (p : Ptr) (l : List Nat)
    (hc : annChain h f p = some l) (g : Nat) (hfg : f ≤ g) : annChain h g p = some l := by
  induction f generalizing p l g with
  | zero =>
    cases p with
    | none =>
      cases g <;> simpa [annChain] using hc
    | some a => simp [annChain] at hc
  | succ f ih =>
    cases p with
    | none =>
      cases g <;> simpa [annChain] using hc
    | some a =>
      obtain ⟨g, rfl⟩ : ∃ g1, g = g1 + 1 := ⟨g - 1, by omega⟩
      simp only [annChain] at hc ⊢
      cases hn : h a with
      | none => simp [hn] at hc
      | some n =>
        cases n with
        | Annotation o =>
          simp only [hn] at hc ⊢
          cases ht : annChain h f o._a with
          | none => simp [ht] at hc
          | some t =>
            simp only [ht, Option.map_some', Option.some.injEq] at hc
            rw [ih o._a t ht g (by omega)]
            simp [hc]
        | _ => simp [hn] at hc

/-- A chain has at most as many annotations as links were allowed. -/
theorem annChain_length (h : ExprHeap) (f : Nat) (p : Ptr) (l : List Nat)
    (hc : annChain h f p = some l) : l.length ≤ f := by
  induction f generalizing p l with
  | zero =>
    cases p with
    | none =>
      simp only [annChain, Option.some.injEq] at hc
      simp [← hc]
    | some a => simp [annChain] at hc
  | succ f ih =>
    cases p with
    | none =>
      simp only [annChain, Option.some.injEq] at hc
      simp [← hc]
    | some a =>
      simp only [annChain] at hc
      cases hn : h a with
      | none => simp [hn] at hc
      | some n =>
        cases n with
        | Annotation o =>
          simp only [hn] at hc
          cases ht : annChain h f o._a with
          | none => simp [ht] at hc
          | some t =>
            simp only [ht, Option.map_some', Option.some.injEq] at hc
            have := ih o._a t ht
            rw [← hc]
            simp only [List.length_cons]
            omega
        | _ => simp [hn] at hc

/-- A non-empty chain read with `f + 1` links: its head is an annotation of
the heap and the rest is the chain of the head's `_a`. -/
theorem annChain_succ_some (h : ExprHeap) (f a : Nat) (l : List Nat) :
    annChain h (f + 1) (some a) = some l ↔
      ∃ o t, h a = some ( ExprNode.Annotation o) ∧ annChain h f o._a = some t ∧ l = a :: t := by
  constructor
  · intro hc
    simp only [annChain] at hc
    cases hn : h a with
    | none => simp [hn] at hc
    | some n =>
      cases n with
      | Annotation o =>
        simp only [hn] at hc
        cases ht : annChain h f o._a with
        | none => simp [ht] at hc
        | some t =>
          simp only [ht, Option.map_some', Option.some.injEq] at hc
          exact ⟨o, t, rfl, ht, hc.symm⟩
      | _ => simp [hn] at hc
  · rintro ⟨o, t, hn, ht, rfl⟩
    simp [annChain, hn, ht]

/-- A chain is read with as many links as it has annotations. -/
theorem annChain_tight (h : ExprHeap) (f : Nat) (p : Ptr) (l : List Nat)
    (hc : annChain h f p = some l) : annChain h l.length p = some l := by
  induction f generalizing p l with
  | zero =>
    cases p with
    | none =>
      simp only [annChain, Option.some.injEq] at hc
      subst hc
      rfl
    | some a => simp [annChain] at hc
  | succ f ih =>
    cases p with
    | none =>
      simp only [annChain, Option.some.injEq] at hc
      subst hc
      rfl
    | some a =>
      obtain ⟨o, t, hn, ht, rfl⟩ := (annChain_succ_some h f a l).1 hc
      exact (annChain_succ_some h t.length a (a :: t)).2 ⟨o, t, hn, ih o._a t ht, rfl⟩

/-- From an annotation of a chain, the chain that starts there is read within
the same bound and is not longer. -/
theorem annChain_of_mem (h : ExprHeap) (f : Nat) (p : Ptr) (l : List Nat)
    (hc : annChain h f p = some l) (x : Nat) (hx : x ∈ l) :
    ∃ s, annChain h f (some x) = some s ∧ s.length ≤ l.length := by
  induction f generalizing p l with
  | zero =>
    cases p with
    | none =>
      simp only [annChain, Option.some.injEq] at hc
      subst hc
      simp at hx
    | some a => simp [annChain] at hc
  | succ f ih =>
    cases p with
    | none =>
      simp only [annChain, Option.some.injEq] at hc
      subst hc
      simp at hx
    | some a =>
      obtain ⟨o, t, hn, ht, rfl⟩ := (annChain_succ_some h f a l).1 hc
      rcases List.mem_cons.1 hx with rfl | hxt
      · exact ⟨x :: t, hc, le_refl _⟩
      · obtain ⟨s, hs, hlen⟩ := ih o._a t ht hxt
        refine ⟨s, annChain_mono h f (some x) s hs (f + 1) (by omega), ?_⟩
        simp only [List.length_cons]
        omega

/-- An annotation is not part of the chain that follows it. -/
theorem annChain_not_mem_tail (h : ExprHeap) (f a : Nat) (o : MiniZinc.Annotation)
    (t : List Nat) (hn : h a = some ( ExprNode.Annotation o))
    (ht : annChain h f o._a = some t) : a ∉ t := by
  intro hmem
  obtain ⟨s, hs, hlen⟩ := annChain_of_mem h f o._a t ht a hmem
  have hs1 := annChain_mono h f (some a) s hs (f + 1) (by omega)
  have hfull : annChain h (f + 1) (some a) = some (a :: t) :=
    (annChain_succ_some h f a (a :: t)).2 ⟨o, t, hn, ht, rfl⟩
  rw [hfull] at hs1
  simp only [Option.some.injEq] at hs1
  rw [← hs1] at hlen
  simp only [List.length_cons] at hlen
  omega

/-- A write at an address outside a chain leaves the chain. -/
theorem annChain_set (h : ExprHeap) (f : Nat) (p : Ptr) (l : List Nat)
    (hc : annChain h f p = some l) (a : Nat) (n : ExprNode) (ha : a ∉ l) :
    annChain (h.set a n) f p = some l := by
  induction f generalizing p l with
  | zero =>
    cases p with
    | none => simpa [annChain] using hc
    | some b => simp [annChain] at hc
  | succ f ih =>
    cases p with
    | none => simpa [annChain] using hc
    | some b =>
      obtain ⟨o, t, hn, ht, rfl⟩ := (annChain_succ_some h f b l).1 hc
      have hba : b ≠ a := fun hEq => ha (by simp [hEq])
      have hat : a ∉ t := fun hm => ha (List.mem_cons_of_mem b hm)
      refine (annChain_succ_some (h.set a n) f b (b :: t)).2 ⟨o, t, ?_, ih o._a t ht hat, rfl⟩
      simp [ExprHeap.set, hba, hn]

/-- The walk of `merge` along the chain of `a`: with the links the chain was
read with it returns; the chain of `a` is then the old chain followed by the
chain of `b`, the chain of `b` is as before, and only annotations of the old
chain of `a` are written. -/
theorem Annotation.merge_chain (h : ExprHeap) (b : Ptr) (lb : List Nat) (fb : Nat)
    (hb : annChain h fb b = some lb) (f a : Nat) (la : List Nat)
    (ha : annChain h f (some a) = some la) (hdisj : ∀ x ∈ la, x ∉ lb) :
    ∃ h1, Annotation.merge h f a b = some h1 ∧
      annChain h1 (f + fb) (some a) = some (la ++ lb) ∧
      annChain h1 fb b = some lb ∧
      ∀ x, x ∉ la → h1 x = h x := by
  induction f generalizing a la with
  | zero => simp [annChain] at ha
  | succ f ih =>
    obtain ⟨o, t, hn, ht, rfl⟩ := (annChain_succ_some h f a la).1 ha
    have halb : a ∉ lb := hdisj a (by simp)
    cases hnext : o._a with
    | none =>
      rw [hnext] at ht
      have htnil : t = [] := by
        cases f <;> simp [annChain] at ht <;> exact ht
      subst htnil
      refine ⟨h.set a ( ExprNode.Annotation { o with _a := b }), ?_, ?_, ?_, ?_⟩
      · simp [ Annotation.merge, hn, hnext]
      · have hb1 := annChain_set h fb b lb hb a ( ExprNode.Annotation { o with _a := b }) halb
        have hb2 := annChain_mono _ fb b lb hb1 (f + fb) (by omega)
        have hfuel : f + 1 + fb = (f + fb) + 1 := by omega
        rw [hfuel]
        exact (annChain_succ_some _ (f + fb) a ([a] ++ lb)).2
          ⟨{ o with _a := b }, lb, by simp [ExprHeap.set], hb2, rfl⟩
      · exact annChain_set h fb b lb hb a _ halb
      · intro x hx
        have hxa : x ≠ a := fun hEq => hx (by simp [hEq])
        simp [ExprHeap.set, hxa]
    | some next =>
      rw [hnext] at ht
      have hat : a ∉ t := annChain_not_mem_tail h f a o t hn (by rw [hnext]; exact ht)
      obtain ⟨h1, hm, hc1, hb1, hframe⟩ :=
        ih next t ht (fun x hx => hdisj x (List.mem_cons_of_mem a hx))
      refine ⟨h1, ?_, ?_, hb1, ?_⟩
      · simp [ Annotation.merge, hn, hnext, hm]
      · have hfuel : f + 1 + fb = (f + fb) + 1 := by omega
        rw [hfuel]
        refine (annChain_succ_some h1 (f + fb) a (a :: t ++ lb)).2 ⟨o, t ++ lb, ?_, ?_, rfl⟩
        · rw [hframe a hat, hn]
        · rw [hnext]
          exact hc1
      · intro x hx
        exact hframe x (fun hm1 => hx (List.mem_cons_of_mem a hm1))

/-- A call of `merge` that returns within a bound returns the same heap within
every larger bound. -/
theorem Annotation.merge_mono (h : ExprHeap) (b : Ptr) (f a : Nat) (h1 : ExprHeap)
    (hm : Annotation.merge h f a b = some h1) (g : Nat) (hfg : f ≤ g) :
    Annotation.merge h g a b = some h1 := by
  induction f generalizing a g with
  | zero => simp [ Annotation.merge] at hm
  | succ f ih =>
    obtain ⟨g, rfl⟩ : ∃ g1, g = g1 + 1 := ⟨g - 1, by omega⟩
    simp only [ Annotation.merge] at hm ⊢
    cases hn : h a with
    | none => simp [hn] at hm
    | some n =>
      cases n with
      | Annotation o =>
        simp only [hn] at hm ⊢
        cases hnext : o._a with
        | none =>
          simp only [hnext] at hm ⊢
          exact hm
        | some next =>
          simp only [hnext] at hm ⊢
          exact ih next hm g (by omega)
      | _ => simp [hn] at hm

/-- C13: on a node built by a constructor, `annotate(A1)`, `annotate(A2)`,
`annotate(A3)` with three annotations built by the constructor of the
annotation class, at addresses different from each other and from the node, all
return (with at least three links allowed), and the annotation chain of the node
is then `A1`, `A2`, `A3` from head to tail. -/
theorem annotate_order (h : ExprHeap) (p a1 a2 a3 : Nat) (c : ExprCtor)
    (l1 l2 l3 : Location) (e1 e2 e3 : Ptr) (fuel : Nat)
    (hp : h p = some c.build)
    (h1 : h a1 = some ( ExprNode.Annotation ( Annotation.Annotation l1 e1)))
    (h2 : h a2 = some ( ExprNode.Annotation ( Annotation.Annotation l2 e2)))
    (h3 : h a3 = some ( ExprNode.Annotation ( Annotation.Annotation l3 e3)))
    (hp1 : p ≠ a1) (hp2 : p ≠ a2) (hp3 : p ≠ a3)
    (h12 : a1 ≠ a2) (h13 : a1 ≠ a3) (h23 : a2 ≠ a3) (hfuel : 3 ≤ fuel) :
    ∃ hA hB hC n,
      Expression.annotate h fuel p (some a1) = some hA ∧
      Expression.annotate hA fuel p (some a2) = some hB ∧
      Expression.annotate hB fuel p (some a3) = some hC ∧
      hC p = some n ∧
      annChain hC fuel n.toExpression._ann = some [a1, a2, a3] := by
  obtain ⟨k, rfl⟩ : ∃ k, fuel = k + 3 := ⟨fuel - 3, by omega⟩
  have hA1 : (h.set p (c.build.setAnn (some a1))) a1
      = some ( ExprNode.Annotation ( Annotation.Annotation l1 e1)) := by
    simp [ExprHeap.set, hp1.symm, h1]
  refine ⟨h.set p (c.build.setAnn (some a1)),
    (h.set p (c.build.setAnn (some a1))).set a1
      ( ExprNode.Annotation { Annotation.Annotation l1 e1 with _a := some a2 }),
    ((h.set p (c.build.setAnn (some a1))).set a1
      ( ExprNode.Annotation { Annotation.Annotation l1 e1 with _a := some a2 })).set a2
      ( ExprNode.Annotation { Annotation.Annotation l2 e2 with _a := some a3 }),
    c.build.setAnn (some a1), ?_, ?_, ?_, ?_, ?_⟩
  · simp [Expression.annotate, hp, ExprCtor.build_ann]
  · simp [Expression.annotate, ExprHeap.set, ExprNode.setAnn_ann, Annotation.merge,
      hp1.symm, h1, Annotation.Annotation]
  · simp [Expression.annotate, ExprHeap.set, ExprNode.setAnn_ann, Annotation.merge,
      hp1, hp1.symm, hp2.symm, h12.symm, h2, Annotation.Annotation]
  · simp [ExprHeap.set, hp1, hp2]
  · simp [ExprHeap.set, ExprNode.setAnn_ann, annChain, hp3.symm, h12, h13.symm, h23.symm,
      h3, Annotation.Annotation]

/-- On `sampleHeap`, the node at address 10 is annotated with the annotations at
5, 6 and 7, and its chain is then 5, 6, 7. -/
theorem annotate_order_witness :
    ((Expression.annotate sampleHeap 3 10 (some 5)).bind fun hA =>
      (Expression.annotate hA 3 10 (some 6)).bind fun hB =>
        (Expression.annotate hB 3 10 (some 7)).bind fun hC =>
          (hC 10).bind fun n => annChain hC 3 n.toExpression._ann) = some [5, 6, 7] ∧
    ∃ hA hB hC n,
      Expression.annotate sampleHeap 3 10 (some 5) = some hA ∧
      Expression.annotate hA 3 10 (some 6) = some hB ∧
      Expression.annotate hB 3 10 (some 7) = some hC ∧
      hC 10 = some n ∧
      annChain hC 3 n.toExpression._ann = some [5, 6, 7] :=
  ⟨by decide,
    annotate_order sampleHeap 10 5 6 7
      (ExprCtor.BinOp sampleLocation (some 20) BinOpType.BOT_PLUS (some 20))
      sampleLocation sampleLocation sampleLocation (some 20) (some 20) (some 20) 3
      rfl rfl rfl rfl (by decide) (by decide) (by decide) (by decide) (by decide) (by decide)
      (by decide)⟩

/-- C14: for two annotation chains of a heap, `a1 .. an` starting at the
annotation `a` and `b1 .. bm` starting at `b`, that share no annotation,
`a.merge(b)` returns whenever at least `n` links are allowed; the chain of `a` is
then `a1 .. an, b1 .. bm`, and the chain of `b` is as before. -/
theorem merge_concatenates (h : ExprHeap) (a : Nat) (b : Ptr) (la lb : List Nat)
    (fa fb : Nat) (ha : annChain h fa (some a) = some la)
    (hb : annChain h fb b = some lb) (hdisj : ∀ x ∈ la, x ∉ lb) :
    ∃ h1,
      (∀ fuel, la.length ≤ fuel → Annotation.merge h fuel a b = some h1) ∧
      (∀ fuel, la.length + lb.length ≤ fuel →
        annChain h1 fuel (some a) = some (la ++ lb)) ∧
      (∀ fuel, lb.length ≤ fuel → annChain h1 fuel b = some lb) := by
  have ha1 := annChain_tight h fa (some a) la ha
  have hb1 := annChain_tight h fb b lb hb
  obtain ⟨h1, hm, hc, hcb, -⟩ :=
    Annotation.merge_chain h b lb lb.length hb1 la.length a la ha1 hdisj
  refine ⟨h1, fun fuel hf => ?_, fun fuel hf => ?_, fun fuel hf => ?_⟩
  · exact Annotation.merge_mono h b la.length a h1 hm fuel hf
  · exact annChain_mono h1 _ (some a) _ hc fuel hf
  · exact annChain_mono h1 _ b _ hcb fuel hf

/-- On `sampleHeap`, the chain 3, 4 is merged into the chain 1, 2; the chain
that starts at 1 is then 1, 2, 3, 4. -/
theorem merge_concatenates_witness :
    annChain sampleHeap 2 (some 1) = some [1, 2] ∧
    annChain sampleHeap 2 (some 3) = some [3, 4] ∧
    (( Annotation.merge sampleHeap 2 1 (some 3)).bind fun h1 => annChain h1 4 (some 1))
      = some [1, 2, 3, 4] ∧
    ∃ h1,
      (∀ fuel, [1, 2].length ≤ fuel → Annotation.merge sampleHeap fuel 1 (some 3) = some h1) ∧
      (∀ fuel, [1, 2].length + [3, 4].length ≤ fuel →
        annChain h1 fuel (some 1) = some ([1, 2] ++ [3, 4])) ∧
      (∀ fuel, [3, 4].length ≤ fuel → annChain h1 fuel (some 3) = some [3, 4]) :=
  ⟨by decide, by decide, by decide,
    merge_concatenates sampleHeap 1 (some 3) [1, 2] [3, 4] 2 2 (by decide) (by decide)
      (by decide)⟩

/-- C21: each constructor of a basic type-inst sets `_tiid` to the `tiid` of its
own class, and the five `tiid` values are pairwise distinct; `IntTiExpr` and
`FloatTiExpr` store the domain expression they are given (a pointer, possibly
`NULL`); `BoolTiExpr` stores the domain it is given, one of the three values
`BD_TRUE`, `BD_FALSE`, `BD_NONE`; `StringTiExpr` and `AnnTiExpr` consist of the
tag alone. -/
theorem basic_tiexpr_tags :
    ((∀ d : Ptr, (IntTiExpr.IntTiExpr d)._tiid = TiClass.tiid TiClass.IntTiExpr) ∧
      (∀ d : BoolDomain, (BoolTiExpr.BoolTiExpr d)._tiid = TiClass.tiid TiClass.BoolTiExpr) ∧
      (∀ d : Ptr, (FloatTiExpr.FloatTiExpr d)._tiid = TiClass.tiid TiClass.FloatTiExpr) ∧
      StringTiExpr.StringTiExpr._tiid = TiClass.tiid TiClass.StringTiExpr ∧
      AnnTiExpr.AnnTiExpr._tiid = TiClass.tiid TiClass.AnnTiExpr) ∧
    Function.Injective TiClass.tiid ∧
    ((∀ d : Ptr, (IntTiExpr.IntTiExpr d)._domain = d) ∧
      (∀ d : Ptr, (FloatTiExpr.FloatTiExpr d)._domain = d) ∧
      (∀ d : BoolDomain, (BoolTiExpr.BoolTiExpr d)._domain = d)) ∧
    (Fintype.card BoolDomain = 3 ∧
      ∀ d : BoolDomain,
        d = BoolDomain.BD_TRUE ∨ d = BoolDomain.BD_FALSE ∨ d = BoolDomain.BD_NONE) ∧
    ((∀ o : MiniZinc.StringTiExpr, o = { toBaseTiExpr := o.toBaseTiExpr }) ∧
      (∀ o : MiniZinc.AnnTiExpr, o = { toBaseTiExpr := o.toBaseTiExpr })) := by
  refine ⟨⟨fun _ => rfl, fun _ => rfl, fun _ => rfl, rfl, rfl⟩, ?_,
    ⟨fun _ => rfl, fun _ => rfl, fun _ => rfl⟩, ⟨rfl, fun d => by cases d <;> simp⟩,
    ⟨fun _ => rfl, fun _ => rfl⟩⟩
  intro a b hab
  cases a <;> cases b <;> first | rfl | cases hab

/-- C22: an expression node built by the constructor of any class from the
location `L` carries `L`, with its file name, first line, first column, last
line and last column, and has no annotation (`_ann` is `NULL`); an item node
built from the location `L` carries `L`. -/
theorem constructed_location :
    (∀ c : ExprCtor,
      c.build.toExpression._loc = c.loc ∧
      c.build.toExpression._loc.filename = c.loc.filename ∧
      c.build.toExpression._loc.first_line = c.loc.first_line ∧
      c.build.toExpression._loc.first_column = c.loc.first_column ∧
      c.build.toExpression._loc.last_line = c.loc.last_line ∧
      c.build.toExpression._loc.last_column = c.loc.last_column ∧
      c.build.toExpression._ann = NULL) ∧
    (∀ c : ItemCtor, c.build.toItem._loc = c.loc) := by
  constructor
  · intro c
    have hloc : c.build.toExpression._loc = c.loc := by cases c <;> rfl
    refine ⟨hloc, ?_, ?_, ?_, ?_, ?_, ExprCtor.build_ann c⟩ <;> rw [hloc]
  · intro c
    cases c <;> rfl

/-- C28: the annotation the constructor builds for the expression `e` has the
tag `E_ANN`, holds `e`, has no successor (`_a` is `NULL`) and no annotation of
its own (`_ann` is `NULL`). -/
theorem fresh_annotation_singleton (loc : Location) (e : Ptr) :
    ( Annotation.Annotation loc e)._eid = ExpressionId.E_ANN ∧
    ( Annotation.Annotation loc e)._e = e ∧
    ( Annotation.Annotation loc e)._a = NULL ∧
    ( Annotation.Annotation loc e)._ann = NULL ∧
    ∀ (h : ExprHeap) (a fuel : Nat),
      h a = some ( ExprNode.Annotation ( Annotation.Annotation loc e)) →
        annChain h (fuel + 1) (some a) = some [a] := by
  refine ⟨rfl, rfl, rfl, rfl, fun h a fuel ha => ?_⟩
  refine (annChain_succ_some h fuel a [a]).2 ⟨ Annotation.Annotation loc e, [], ha, ?_, rfl⟩
  cases fuel <;> rfl

/-- C25: on every `TiExpr`, `ispar()` and `isvar()` are not both true, and both
are false exactly when the variable type is `VT_SVAR`; so `isvar()` is not the
negation of `ispar()`: on a type-inst of a search variable both are false. -/
theorem ispar_isvar_exclusive :
    (∀ t : MiniZinc.TiExpr, ¬ (t.ispar = true ∧ t.isvar = true)) ∧
    (∀ t : MiniZinc.TiExpr,
      (t.ispar = false ∧ t.isvar = false) ↔ t._vartype = VarType.VT_SVAR) ∧
    (TiExpr.TiExpr sampleLocation (some []) VarType.VT_SVAR false none).isvar
      ≠ !(TiExpr.TiExpr sampleLocation (some []) VarType.VT_SVAR false none).ispar := by
  refine ⟨fun t => ?_, fun t => ?_, by decide⟩
  · cases hv : t._vartype <;> simp [TiExpr.ispar, TiExpr.isvar, hv]
  · cases hv : t._vartype <;> simp [TiExpr.ispar, TiExpr.isvar, hv]

/-- C26: on a `TiExpr` whose variable type is not `VT_PAR`, `isann()` returns
false whatever the range sequence and the basic type are, also when they are
`NULL`; the result of `isann()` depends on the basic type only when the
type-inst is a parameter with an empty range sequence and no set flag; and
whenever `isann()` is true, `ispar()` is true and `isvar()`, `isarray()` and
`isset()` are false. -/
theorem isann_short_circuit :
    (∀ (t : MiniZinc.TiExpr) (ranges : CtxVecPtr Ptr) (ti : Option BaseTiExpr),
      t._vartype ≠ VarType.VT_PAR →
        TiExpr.isann { t with _ranges := ranges, _ti := ti } = some false) ∧
    (∀ (t : MiniZinc.TiExpr) (ti : Option BaseTiExpr),
      ¬ (t.ispar = true ∧ t.isarray = some false ∧ t.isset = false) →
        TiExpr.isann { t with _ti := ti } = t.isann) ∧
    (∀ t : MiniZinc.TiExpr, t.isann = some true →
      t.ispar = true ∧ t.isvar = false ∧ t.isarray = some false ∧ t.isset = false) := by
  refine ⟨fun t ranges ti hv => ?_, fun t ti hn => ?_, fun t ht => ?_⟩
  · simp [TiExpr.isann, TiExpr.ispar, hv]
  · cases hp : t.ispar
    · simp [TiExpr.isann, TiExpr.ispar] at hp ⊢
      simp [hp]
    · have hp1 : TiExpr.ispar { t with _ti := ti } = true := hp
      have ha1 : TiExpr.isarray { t with _ti := ti } = t.isarray := rfl
      have hs1 : TiExpr.isset { t with _ti := ti } = t.isset := rfl
      cases ha : t.isarray with
      | none => simp [TiExpr.isann, hp, hp1, ha1, ha]
      | some b =>
        cases b
        · cases hs : t.isset
          · exact absurd ⟨hp, ha, hs⟩ hn
          · simp [TiExpr.isann, hp, hp1, ha1, hs1, ha, hs]
        · simp [TiExpr.isann, hp, hp1, ha1, ha]
  · cases hp : t.ispar
    · simp [TiExpr.isann, hp] at ht
    · have hv : t.isvar = false := by
        simp only [TiExpr.ispar, beq_iff_eq] at hp
        simp [TiExpr.isvar, hp]
      cases ha : t.isarray with
      | none => simp [TiExpr.isann, hp, ha] at ht
      | some b =>
        cases b
        · cases hs : t.isset
          · exact ⟨rfl, hv, rfl, rfl⟩
          · simp [TiExpr.isann, hp, ha, hs] at ht
        · simp [TiExpr.isann, hp, ha] at ht

/-- C27: every expression node satisfies `isa<V>` for exactly one expression
class `V`, and every item node for exactly one item class; the maps from the
classes to the tags, `V::eid` and `V::iid`, are bijections onto the
enumerations `ExpressionId` and `ItemId`. -/
theorem isa_unique_class :
    (∀ n : ExprNode, ∃! V : ExprClass, Expression.isa V n = true) ∧
    (∀ n : ItemNode, ∃! V : ItemClass, Item.isa V n = true) ∧
    Function.Bijective ExprClass.eid ∧
    Function.Bijective ItemClass.iid := by
  have hE : Function.Bijective ExprClass.eid :=
    (Fintype.bijective_iff_injective_and_card _).2 ⟨ExprClass.eid_injective, rfl⟩
  have hI : Function.Bijective ItemClass.iid :=
    (Fintype.bijective_iff_injective_and_card _).2 ⟨ItemClass.iid_injective, rfl⟩
  refine ⟨fun n => ?_, fun n => ?_, hE, hI⟩
  · obtain ⟨V, hV, huniq⟩ := hE.existsUnique n.toExpression._eid
    refine ⟨V, by simp [Expression.isa, hV], fun W hW => ?_⟩
    simp only [Expression.isa, beq_iff_eq] at hW
    exact huniq W hW.symm
  · obtain ⟨V, hV, huniq⟩ := hI.existsUnique n.toItem._iid
    refine ⟨V, by simp [Item.isa, hV], fun W hW => ?_⟩
    simp only [Item.isa, beq_iff_eq] at hW
    exact huniq W hW.symm

/-- C23: each of the three public `operator delete` members of `ASTNode`
leaves the storage of the context as it was: the interned strings, every
expression node and every item node, whatever node is deleted. -/
theorem delete_noop (mem : Arena) (p q : Ptr) (n size : Nat) :
    (ASTNode.delete_ctx mem p n = mem ∧
      ASTNode.delete_size mem p size = mem ∧
      ASTNode.delete_placement mem p q = mem) ∧
    (∀ a, (ASTNode.delete_ctx mem p n).exprs a = mem.exprs a ∧
      (ASTNode.delete_size mem p size).exprs a = mem.exprs a ∧
      (ASTNode.delete_placement mem p q).exprs a = mem.exprs a) ∧
    (∀ a, (ASTNode.delete_ctx mem p n).items a = mem.items a ∧
      (ASTNode.delete_size mem p size).items a = mem.items a ∧
      (ASTNode.delete_placement mem p q).items a = mem.items a) :=
  ⟨⟨rfl, rfl, rfl⟩, fun _ => ⟨rfl, rfl, rfl⟩, fun _ => ⟨rfl, rfl, rfl⟩⟩

/-- C24: `setModel(m, own)` passes its assertion exactly when `_m` of the
include item is `NULL`; when it fails, the object is as before the call, with
its `_m` and `_own`; and after `setModel(NULL, own)` on an item without a model
a further `setModel(m2, own2)` returns and attaches `m2`. -/
theorem setModel_fails_iff :
    (∀ (i : MiniZinc.IncludeI) (m : Ptr) (own : Bool),
      ((∃ i1, IncludeI.setModel i m own = Except.ok i1) ↔ i._m = NULL) ∧
      (IncludeI.setModel i m own = Except.error "_m==NULL" ↔ i._m ≠ NULL)) ∧
    (∀ (i : MiniZinc.IncludeI) (m : Ptr) (own : Bool),
      IncludeI.setModel i m own
        = (IncludeI.setModelEnd i m own).2.map (fun _ => (IncludeI.setModelEnd i m own).1)) ∧
    (∀ (i : MiniZinc.IncludeI) (m : Ptr) (own : Bool), i._m ≠ NULL →
      IncludeI.setModelEnd i m own = (i, Except.error "_m==NULL") ∧
      (IncludeI.setModelEnd i m own).1._m = i._m ∧
      (IncludeI.setModelEnd i m own).1._own = i._own) ∧
    (∀ (i : MiniZinc.IncludeI) (own : Bool) (m2 : Ptr) (own2 : Bool), i._m = NULL →
      ∃ i1 i2, IncludeI.setModel i NULL own = Except.ok i1 ∧
        IncludeI.setModel i1 m2 own2 = Except.ok i2 ∧ i2._m = m2 ∧ i2._own = own2) := by
  refine ⟨fun i m own => ?_, fun i m own => ?_, fun i m own hm => ?_,
    fun i own m2 own2 hm => ?_⟩
  · by_cases hm : i._m = NULL
    · simp [IncludeI.setModel, assert, hm]
    · simp [IncludeI.setModel, assert, hm]
  · by_cases hm : i._m = NULL
    · simp [IncludeI.setModel, IncludeI.setModelEnd, assert, hm, Except.map]
    · simp [IncludeI.setModel, IncludeI.setModelEnd, assert, hm, Except.map]
  · simp [IncludeI.setModelEnd, assert, hm]
  · refine ⟨{ i with _m := NULL, _own := own }, { i with _m := m2, _own := own2 }, ?_, ?_,
      rfl, rfl⟩
    · simp [IncludeI.setModel, assert, hm]
    · simp [IncludeI.setModel, assert]

set_option maxRecDepth 20000 in
/-- C29: the values of the enumerators of `yytokentype` are pairwise distinct
and are the numbers 258 to 366 in this order, so each is above the character
codes 0 to 255; the names of the enumerators are pairwise distinct, and every
token macro has the name of an enumerator and defines the value of that
enumerator. -/
theorem token_codes_well_formed :
    (yytokentype.map Prod.snd).Nodup ∧
    yytokentype.map Prod.snd = List.range' 258 109 ∧
    (∀ t ∈ yytokentype, 258 ≤ t.2 ∧ t.2 ≤ 366 ∧ 255 < t.2) ∧
    (∀ v, 258 ≤ v → v ≤ 366 → v ∈ yytokentype.map Prod.snd) ∧
    (yytokentype.map Prod.fst).Nodup ∧
    (∀ d ∈ tokenDefines, yytokentype.value d.1 = some d.2) ∧
    tokenDefines.map Prod.fst = yytokentype.map Prod.fst := by
  have hvals : yytokentype.map Prod.snd = List.range' 258 109 := by decide
  refine ⟨?_, hvals, ?_, ?_, ?_, ?_, ?_⟩
  · rw [hvals]
    exact List.nodup_range' 258 109
  · intro t ht
    have hmem : t.2 ∈ yytokentype.map Prod.snd := List.mem_map_of_mem Prod.snd ht
    rw [hvals, List.mem_range'_1] at hmem
    omega
  · intro v h1 h2
    rw [hvals, List.mem_range'_1]
    omega
  · decide
  · decide
  · decide

end MiniZinc
